import Mathlib

/-!
# TorBlockRedirect: address codec, address sets, request handler, refresh cycle

A shallow embedding of `netaddr.go` and `torblockredirect.go`.

* A Go `string` is its sequence of bytes, `List Nat`, every byte below 256.
* A Go `uint8`/`uint32` is a `Nat`; conversions are written `% 256` / `% 2 ^ 32`.
* Functions of the Go standard library that the code calls (`net.ParseIP`,
  `regexp.FindAllString`, the HTTP client) are parameters of the definitions.
-/

namespace TorBlockRedirect

/-- A Go string: the list of its bytes. -/
abbrev GoString := List Nat

/-- UTF-8 bytes of one character (Go source text is UTF-8). -/
def utf8Char (c : Char) : List Nat :=
  let n := c.toNat
  if n < 128 then [n]
  else if n < 2048 then [192 + n / 64, 128 + n % 64]
  else if n < 65536 then [224 + n / 4096, 128 + n / 64 % 64, 128 + n % 64]
  else [240 + n / 262144, 128 + n / 4096 % 64, 128 + n / 64 % 64, 128 + n % 64]

/-- The Go string written as the literal `s`. -/
def go (s : String) : GoString :=
  s.toList.flatMap utf8Char

/-! ## netaddr.go -/

/-- IPv4 is a comparable representation of a 32bit IPv4 address (`addr uint32`). -/
structure IPv4 where
  addr : Nat
deriving DecidableEq, Repr

/-- IPv6 is a comparable representation of an IPv6 address (`addr [16]byte`). -/
structure IPv6 where
  addr : List Nat
deriving DecidableEq, Repr

/-- CreateIPv4 returns the IPv4 of the address a.b.c.d:
`uint32(a)<<24 | uint32(b)<<16 | uint32(c)<<8 | uint32(d)`, the arguments being `uint8`. -/
def CreateIPv4 (a b c d : Nat) : IPv4 :=
  { addr := (a <<< 24 % 2 ^ 32) ||| (b <<< 16 % 2 ^ 32) ||| (c <<< 8 % 2 ^ 32) ||| d }

/-- CreateIPv6 returns the IPv6 address as a 16-byte array. -/
def CreateIPv6 (addr : List Nat) : IPv6 :=
  { addr := addr }

deriving instance DecidableEq for Except

/-- The local variables of `ParseIPv4`: `fields [3]uint8`, `val int`, `pos int`. -/
structure ParseState where
  fields : List Nat
  val : Nat
  pos : Nat
deriving DecidableEq, Repr

/-- The zero values the locals of `ParseIPv4` start with. -/
def ParseState.init : ParseState :=
  { fields := [0, 0, 0], val := 0, pos := 0 }

/-- One iteration of the `for` loop of `ParseIPv4`, at index `i < len(s)`.
In the digit branch `s[i] ≥ '0'`, so the subtraction is exact. -/
def ParseIPv4.step (s : GoString) (i : Nat) (st : ParseState) : Except String ParseState :=
  let c := s.getD i 0
  if 48 ≤ c ∧ c ≤ 57 then
    let val := st.val * 10 + c - 48
    if val > 255 then
      .error "field has value >255"
    else
      .ok { st with val := val }
  else if c = 46 then
    if i = 0 ∨ i = s.length - 1 ∨ s.getD (i - 1) 0 = 46 then
      .error "every field must have at least one digit"
    else if st.pos = 3 then
      .error "address too long"
    else
      .ok { fields := st.fields.set st.pos (st.val % 256), val := 0, pos := st.pos + 1 }
  else
    .error "unexpected character"

/-- The loop `for i := 0; i < len(s); i++`, entered at index `i` with `n = len(s) - i`
iterations left. -/
def ParseIPv4.loop (s : GoString) : Nat → Nat → ParseState → Except String ParseState
  | 0, _, st => .ok st
  | n + 1, i, st =>
    match ParseIPv4.step s i st with
    | .error e => .error e
    | .ok st' => ParseIPv4.loop s n (i + 1) st'

/-- ParseIPv4 parses s as an IPv4 address, returning the result or an error. -/
def ParseIPv4 (s : GoString) : Except String IPv4 :=
  match ParseIPv4.loop s s.length 0 ParseState.init with
  | .error e => .error e
  | .ok st =>
    if st.pos < 3 then
      .error "address too short"
    else
      .ok (CreateIPv4 (st.fields.getD 0 0) (st.fields.getD 1 0) (st.fields.getD 2 0)
        (st.val % 256))

/-! ### `net.IP` of the Go standard library -/

/-- A Go `net.IP`: a byte slice, of length 4 or 16 when it holds an address. -/
abbrev NetIP := List Nat

/-- Go's `IP.To4`: a 4-byte slice is returned as it is; a 16-byte slice
`0:0:0:0:0:ffff:a.b.c.d` gives its last four bytes; anything else is nil. -/
def To4 (ip : NetIP) : Option NetIP :=
  if ip.length = 4 then some ip
  else if ip.length = 16 ∧ ip.take 10 = List.replicate 10 0 ∧ ip.getD 10 0 = 255 ∧
      ip.getD 11 0 = 255 then
    some (ip.drop 12)
  else none

/-- Go's `IP.To16`: a 4-byte slice is converted to the 16-byte IPv4-mapped form, a
16-byte slice is returned as it is; anything else is nil. -/
def To16 (ip : NetIP) : Option NetIP :=
  if ip.length = 4 then some (List.replicate 10 0 ++ [255, 255] ++ ip)
  else if ip.length = 16 then some ip
  else none

/-- Go's `copy(dst[:], src)` into a zeroed `[16]byte`. -/
def copy16 (src : List Nat) : List Nat :=
  (src ++ List.replicate 16 0).take 16

/-- ParseIPv6 parses s as an IPv6 address, returning the result or an error.
`parseIP` is `net.ParseIP`; `copy(addr[:], ip.To16())` fills a zeroed 16-byte array. -/
def ParseIPv6 (parseIP : GoString → Option NetIP) (s : GoString) : Except String IPv6 :=
  match parseIP s with
  | none => .error "invalid IPv6 address"
  | some ip =>
    match To16 ip with
    | none => .error "invalid IPv6 address"
    | some ip16 => .ok (CreateIPv6 (copy16 ip16))

/-- IPv4Set contains a set of IPv4 addresses (`set map[IPv4]bool`). The only write to
the map is `s.set[ip] = true`, so the map is given by the list of its keys, without
repetition. -/
structure IPv4Set where
  set : List IPv4
deriving DecidableEq, Repr

/-- IPv6Set contains a set of IPv6 addresses (`set map[IPv6]bool`), as the list of
its keys. -/
structure IPv6Set where
  set : List IPv6
deriving DecidableEq, Repr

/-- CreateIPv4Set creates a new empty IPv4Set. -/
def CreateIPv4Set : IPv4Set :=
  { set := [] }

/-- CreateIPv6Set creates a new empty IPv6Set. -/
def CreateIPv6Set : IPv6Set :=
  { set := [] }

/-- AddIPv4 appends a new IPv4 to the set: `s.set[ip] = true`. -/
def IPv4Set.AddIPv4 (s : IPv4Set) (ip : IPv4) : IPv4Set :=
  if ip ∈ s.set then s else { set := s.set ++ [ip] }

/-- AddIPv6 appends a new IPv6 to the set: `s.set[ip] = true`. -/
def IPv6Set.AddIPv6 (s : IPv6Set) (ip : IPv6) : IPv6Set :=
  if ip ∈ s.set then s else { set := s.set ++ [ip] }

/-- ContainsIPv4 checks for an existing IPv4 within the set: `s.set[ip]`, false for a
missing key. -/
def IPv4Set.ContainsIPv4 (s : IPv4Set) (ip : IPv4) : Bool :=
  decide (ip ∈ s.set)

/-- ContainsIPv6 checks for an existing IPv6 within the set. -/
def IPv6Set.ContainsIPv6 (s : IPv6Set) (ip : IPv6) : Bool :=
  decide (ip ∈ s.set)

/-- Adding all IP addresses from another IPv4 set to the current set:
`for ip := range other.set { s.AddIPv4(ip) }`. -/
def IPv4Set.AddIPv4Set (s other : IPv4Set) : IPv4Set :=
  other.set.foldl IPv4Set.AddIPv4 s

/-- Adding all IP addresses from another IPv6 set to the current set. -/
def IPv6Set.AddIPv6Set (s other : IPv6Set) : IPv6Set :=
  other.set.foldl IPv6Set.AddIPv6 s

/-! ## torblockredirect.go -/

/-- TorBlock represents the main structure of the plugin. The collaborators `next`,
`template` and `client` are not state of the embedding: the next handler shows in the
`Outcome` of `ServeHTTP`, the client in the fetch result given to `UpdateBlockedIPs`. -/
structure TorBlock where
  name : GoString
  enabled : Bool
  addressListURL : GoString
  updateInterval : Int
  blockedIPs : IPv4Set
  blockedIPv6s : IPv6Set
  redirectProtocol : GoString
  redirectHostname : GoString
  redirectSavePath : Bool
  ForwardedHeadersCustomName : GoString
deriving Repr

/-- What `ServeHTTP` reads of an `*http.Request`: `Header` is `req.Header.Get`
(the empty string for an absent header), `RequestURI` is `req.URL.RequestURI()`. -/
structure Request where
  Header : GoString → GoString
  RemoteAddr : GoString
  RequestURI : GoString

/-- What `ServeHTTP` does with the request: hand it to `a.next.ServeHTTP`, call
`http.Redirect(rw, req, url, code)`, or call `rw.WriteHeader(code)`. -/
inductive Outcome where
  | next
  | redirect (url : GoString) (code : Nat)
  | writeHeader (code : Nat)
deriving DecidableEq, Repr

/-- Go's `http.StatusFound`. -/
def StatusFound : Nat := 302

/-- Go's `http.StatusForbidden`. -/
def StatusForbidden : Nat := 403

/-- The client address of `ServeHTTP`: the header `ForwardedHeadersCustomName`, or
`req.RemoteAddr` when that is the empty string. -/
def TorBlock.remoteHost (a : TorBlock) (req : Request) : GoString :=
  let remoteHost := req.Header a.ForwardedHeadersCustomName
  if remoteHost = [] then req.RemoteAddr else remoteHost

/-- The IPv4 key `ServeHTTP` looks up:
`CreateIPv4(remoteIP[0], remoteIP[1], remoteIP[2], remoteIP[3])`. The indices are in
range where `To4` is not nil (the slice then has 4 or 16 bytes). -/
def ServeHTTP.ipv4 (remoteIP : NetIP) : IPv4 :=
  CreateIPv4 (remoteIP.getD 0 0) (remoteIP.getD 1 0) (remoteIP.getD 2 0) (remoteIP.getD 3 0)

/-- The IPv6 key `ServeHTTP` looks up: `copy(ipv6[:], remoteIP.To16())`, a nil source
copying nothing. -/
def ServeHTTP.ipv6 (remoteIP : NetIP) : IPv6 :=
  CreateIPv6 (copy16 ((To16 remoteIP).getD []))

/-- The variable `isTorBlocked` of `ServeHTTP` after the two membership checks. -/
def TorBlock.isTorBlocked (a : TorBlock) (remoteIP : NetIP) : Bool :=
  let isTorBlocked := true
  if (To4 remoteIP).isSome then
    if a.blockedIPs.ContainsIPv4 (ServeHTTP.ipv4 remoteIP) then true else isTorBlocked
  else
    if a.blockedIPv6s.ContainsIPv6 (ServeHTTP.ipv6 remoteIP) then true else isTorBlocked

/-- ServeHTTP processes each incoming request that passes through the plugin.
`parseIP` is `net.ParseIP`. -/
def TorBlock.ServeHTTP (parseIP : GoString → Option NetIP) (a : TorBlock) (req : Request) :
    Outcome :=
  if !a.enabled then
    .next
  else
    let remoteHost := a.remoteHost req
    match parseIP remoteHost with
    | none => .next
    | some remoteIP =>
      if a.isTorBlocked remoteIP then
        if a.redirectHostname ≠ [] then
          let redirectURL := a.redirectProtocol ++ a.redirectHostname
          let redirectURL :=
            if a.redirectSavePath then redirectURL ++ req.RequestURI else redirectURL
          .redirect redirectURL StatusFound
        else
          .writeHeader StatusForbidden
      else
        .next

/-- What `UpdateBlockedIPs` reads of an `*http.Response`: the status code and the
result of `ioutil.ReadAll(res.Body)`. -/
structure HTTPResponse where
  StatusCode : Int
  Body : Except String GoString

/-- The result of `a.client.Get(a.addressListURL)` in one refresh cycle. -/
abbrev FetchResult := Except String HTTPResponse

/-- The test `ip := net.ParseIP(ipStr); ip != nil && ip.To4() != nil`. -/
def isIPv4Literal (parseIP : GoString → Option NetIP) (ipStr : GoString) : Bool :=
  match parseIP ipStr with
  | none => false
  | some ip => (To4 ip).isSome

/-- One iteration of the loop over `foundIPStrs` in `UpdateBlockedIPs`. -/
def UpdateBlockedIPs.addFound (parseIP : GoString → Option NetIP)
    (acc : IPv4Set × IPv6Set) (ipStr : GoString) : IPv4Set × IPv6Set :=
  if isIPv4Literal parseIP ipStr then
    match ParseIPv4 ipStr with
    | .ok ipv4 => (acc.1.AddIPv4 ipv4, acc.2)
    | .error _ => acc
  else
    match ParseIPv6 parseIP ipStr with
    | .ok ipv6 => (acc.1, acc.2.AddIPv6 ipv6)
    | .error _ => acc

/-- The loop `for _, ipStr := range foundIPStrs` of `UpdateBlockedIPs`, from the two
fresh sets `newIPv4Set`, `newIPv6Set`. -/
def UpdateBlockedIPs.parseFound (parseIP : GoString → Option NetIP)
    (foundIPStrs : List GoString) : IPv4Set × IPv6Set :=
  foundIPStrs.foldl (UpdateBlockedIPs.addFound parseIP) (CreateIPv4Set, CreateIPv6Set)

/-- UpdateBlockedIPs fetches the list of blocked IPs from the addressListURL and
updates the blocked IP sets. `fetched` is what `a.client.Get` returned in this cycle,
`findAllString` is `ipRegex.FindAllString(·, -1)`. -/
def TorBlock.UpdateBlockedIPs (parseIP : GoString → Option NetIP)
    (findAllString : GoString → List GoString) (fetched : FetchResult) (a : TorBlock) :
    TorBlock :=
  match fetched with
  | .error _ => a
  | .ok res =>
    if res.StatusCode ≠ 200 then
      a
    else
      match res.Body with
      | .error _ => a
      | .ok bodyStr =>
        let foundIPStrs := findAllString bodyStr
        let new := UpdateBlockedIPs.parseFound parseIP foundIPStrs
        { a with
          blockedIPs := a.blockedIPs.AddIPv4Set new.1
          blockedIPv6s := a.blockedIPv6s.AddIPv6Set new.2 }

/-- The refresh cycles of `New` and `UpdateWorker`, one per element of `fetches`:
`UpdateBlockedIPs` run once for each fetch result, in order. -/
def TorBlock.UpdateWorker (parseIP : GoString → Option NetIP)
    (findAllString : GoString → List GoString) (fetches : List FetchResult) (a : TorBlock) :
    TorBlock :=
  fetches.foldl (fun a fetched => a.UpdateBlockedIPs parseIP findAllString fetched) a

/-- Config holds the configuration for the plugin. -/
structure Config where
  Enabled : Bool
  AddressListURL : GoString
  UpdateIntervalSeconds : Int
  RedirectProtocol : GoString
  RedirectHostname : GoString
  RedirectSavePath : Bool
  ForwardedHeadersCustomName : GoString
deriving DecidableEq, Repr

/-- CreateConfig initializes the default configuration for the plugin. -/
def CreateConfig : Config :=
  { Enabled := true
    AddressListURL := go "https://check.torproject.org/exit-addresses"
    UpdateIntervalSeconds := 3600
    RedirectProtocol := go "http://"
    RedirectHostname := []
    RedirectSavePath := true
    ForwardedHeadersCustomName := go "X-Forwarded-For" }

/-- A Go `int64` result: the value modulo `2 ^ 64`, in the signed range. -/
def wrapInt64 (x : Int) : Int :=
  (x + 2 ^ 63) % 2 ^ 64 - 2 ^ 63

/-- The struct literal `a := &TorBlock{...}` of `New`: the configuration copied, the
interval `time.Duration(config.UpdateIntervalSeconds) * time.Second` in nanoseconds,
and two fresh empty sets. -/
def New.initial (config : Config) (name : GoString) : TorBlock :=
  { name := name
    enabled := config.Enabled
    addressListURL := config.AddressListURL
    updateInterval := wrapInt64 (config.UpdateIntervalSeconds * 1000000000)
    blockedIPs := CreateIPv4Set
    blockedIPv6s := CreateIPv6Set
    redirectProtocol := config.RedirectProtocol
    redirectHostname := config.RedirectHostname
    redirectSavePath := config.RedirectSavePath
    ForwardedHeadersCustomName := config.ForwardedHeadersCustomName }

/-- New creates and initializes a new instance of the TorBlock plugin.
`validRequestURI s` says that `url.ParseRequestURI(s)` returns a nil error; `fetched`
is what the fetch of the first `a.UpdateBlockedIPs()` returned. The worker started by
`go a.UpdateWorker()` is `TorBlock.UpdateWorker` on the result. -/
def New (validRequestURI : GoString → Bool) (parseIP : GoString → Option NetIP)
    (findAllString : GoString → List GoString) (config : Config) (name : GoString)
    (fetched : FetchResult) : Except String TorBlock :=
  if !validRequestURI config.AddressListURL then
    .error "failed to parse exit-addresses URL"
  else if config.UpdateIntervalSeconds < 60 then
    .error "update interval cannot be less than 60 seconds"
  else
    .ok ((New.initial config name).UpdateBlockedIPs parseIP findAllString fetched)

/-! ### Stand-ins for the standard library, to evaluate the code at concrete inputs -/

/-- A `net.ParseIP` known on the literals of `table` only, nil elsewhere. -/
def parseIPTable (table : List (GoString × NetIP)) (s : GoString) : Option NetIP :=
  table.lookup s

/-- The 16-byte slice `net.ParseIP` returns for the IPv4 literal `a.b.c.d`
(`net.IPv4(a, b, c, d)`). -/
def netIPv4 (a b c d : Nat) : NetIP :=
  [0, 0, 0, 0, 0, 0, 0, 0, 0, 0, 255, 255, a, b, c, d]

/-- A `FindAllString` that cuts the body at line feeds. -/
def splitLines (body : GoString) : List GoString :=
  body.splitOn 10

/-- A `url.ParseRequestURI` that accepts the strings of `valid` only. -/
def requestURITable (valid : List GoString) (s : GoString) : Bool :=
  decide (s ∈ valid)

/-- A TorBlock as `New` builds it from `CreateConfig()`, with the given live sets,
redirect hostname and `enabled` flag. -/
def exampleTorBlock (enabled : Bool) (v4 : IPv4Set) (v6 : IPv6Set) (hostname : GoString) :
    TorBlock :=
  { name := go "torblock"
    enabled := enabled
    addressListURL := go "https://check.torproject.org/exit-addresses"
    updateInterval := 3600 * 1000000000
    blockedIPs := v4
    blockedIPv6s := v6
    redirectProtocol := go "http://"
    redirectHostname := hostname
    redirectSavePath := true
    ForwardedHeadersCustomName := go "X-Forwarded-For" }

/-- A request without headers from remote address `addr`, for the URI `uri`. -/
def exampleRequest (addr uri : GoString) : Request :=
  { Header := fun _ => [], RemoteAddr := addr, RequestURI := uri }

/-! ### Notions of the specification -/

/-- Membership of a parsed client address in the live set of its family, in the
specification's sense: an address with a 4-byte form `a.b.c.d` is looked up in the
IPv4 set under its canonical value `CreateIPv4(a, b, c, d)`, any other address in the
IPv6 set under its 16 bytes. -/
def clientIsMember (a : TorBlock) (remoteIP : NetIP) : Bool :=
  match To4 remoteIP with
  | some ip4 =>
    a.blockedIPs.ContainsIPv4
      (CreateIPv4 (ip4.getD 0 0) (ip4.getD 1 0) (ip4.getD 2 0) (ip4.getD 3 0))
  | none => a.blockedIPv6s.ContainsIPv6 (CreateIPv6 (copy16 ((To16 remoteIP).getD [])))

/-- An ASCII decimal digit, `'0'` to `'9'`. -/
def isDigit (c : Nat) : Bool :=
  decide (48 ≤ c ∧ c ≤ 57)

/-- A non-empty run of ASCII decimal digits. -/
def isDigitRun (r : List Nat) : Bool :=
  !r.isEmpty && r.all isDigit

/-- The number a run of ASCII digits writes in decimal, leading zeros allowed: each
digit times the power of ten of its place. -/
def decimalValue : List Nat → Nat
  | [] => 0
  | c :: r => (c - 48) * 10 ^ r.length + decimalValue r

/-- The run `r` is a way of writing the number `a`: a non-empty run of ASCII digits,
with any number of leading zeros, of decimal value `a`. -/
def writesNumber (r : List Nat) (a : Nat) : Bool :=
  isDigitRun r && decide (decimalValue r = a)

/-- A field of a dotted quad: a non-empty run of ASCII digits of value at most 255. -/
def isQuadField (f : List Nat) : Bool :=
  isDigitRun f && decide (decimalValue f ≤ 255)

/-- The strings the specification has `parseIPv4` accept: cut at every `'.'`, the
string gives exactly four fields (so it has exactly three dots), each a non-empty run
of ASCII digits of value at most 255. -/
def isDottedQuad (s : GoString) : Bool :=
  (s.splitOn 46).length == 4 && (s.splitOn 46).all isQuadField

/-- The string `t` was extracted from the body of a cycle of `fetches` that fetched
successfully: the fetch returned without error, with status 200 and a readable body,
and `findAllString` found `t` in that body. -/
def extractedFrom (findAllString : GoString → List GoString) (fetches : List FetchResult)
    (t : GoString) : Prop :=
  ∃ fetched ∈ fetches, ∃ res body, fetched = .ok res ∧ res.StatusCode = 200 ∧
    res.Body = .ok body ∧ t ∈ findAllString body

/-- A refresh cycle's fetch failed: a transport error, a status other than 200, or an
error while reading the body. -/
def fetchFailed (fetched : FetchResult) : Bool :=
  match fetched with
  | .error _ => true
  | .ok res =>
    res.StatusCode != 200 ||
      (match res.Body with
       | .error _ => true
       | .ok _ => false)

/-! ## Lemmas on `ParseIPv4` -/

theorem ParseIPv4.getD_at (pre : List Nat) (c : Nat) (tl : List Nat) :
    (pre ++ c :: tl).getD pre.length 0 = c := by
  induction pre with
  | nil => rfl
  | cons a pre ih => simpa using ih

theorem ParseIPv4.getD_before (pre : List Nat) (p c : Nat) (tl : List Nat) :
    ((pre ++ [p]) ++ c :: tl).getD ((pre ++ [p]).length - 1) 0 = p := by
  have h : (pre ++ [p]) ++ c :: tl = pre ++ p :: (c :: tl) := by simp
  have hl : (pre ++ [p]).length - 1 = pre.length := by simp
  rw [h, hl, ParseIPv4.getD_at]

/-- The digit branch of an iteration. -/
theorem ParseIPv4.step_digit (s pre : List Nat) (c : Nat) (tl : List Nat) (st : ParseState)
    (hs : s = pre ++ c :: tl) (hc : 48 ≤ c ∧ c ≤ 57) :
    ParseIPv4.step s pre.length st =
      if st.val * 10 + c - 48 > 255 then .error "field has value >255"
      else .ok { st with val := st.val * 10 + c - 48 } := by
  subst hs
  unfold ParseIPv4.step
  simp only [ParseIPv4.getD_at, hc, and_self, if_true]

/-- A byte that is neither a digit nor a dot ends the parse with an error. -/
theorem ParseIPv4.step_other (s pre : List Nat) (c : Nat) (tl : List Nat) (st : ParseState)
    (hs : s = pre ++ c :: tl) (hc : ¬ (48 ≤ c ∧ c ≤ 57)) (hdot : c ≠ 46) :
    ParseIPv4.step s pre.length st = .error "unexpected character" := by
  subst hs
  unfold ParseIPv4.step
  simp only [ParseIPv4.getD_at, hc, hdot, if_false]

/-- The dot branch of an iteration: the three index tests say that the dot is the
first byte, the last byte, or follows a dot. -/
theorem ParseIPv4.step_dot (s pre tl : List Nat) (st : ParseState)
    (hs : s = pre ++ 46 :: tl) :
    ParseIPv4.step s pre.length st =
      if pre = [] ∨ tl = [] ∨ pre.getLast? = some 46 then
        .error "every field must have at least one digit"
      else if st.pos = 3 then .error "address too long"
      else .ok { fields := st.fields.set st.pos (st.val % 256), val := 0, pos := st.pos + 1 } := by
  subst hs
  unfold ParseIPv4.step
  have hnd : ¬ (48 ≤ 46 ∧ 46 ≤ 57) := by omega
  simp only [ParseIPv4.getD_at, hnd, if_false, if_true]
  have hcond : (pre.length = 0 ∨ pre.length = (pre ++ 46 :: tl).length - 1 ∨
      (pre ++ 46 :: tl).getD (pre.length - 1) 0 = 46) ↔
      (pre = [] ∨ tl = [] ∨ pre.getLast? = some 46) := by
    rcases List.eq_nil_or_concat pre with hp | ⟨pre0, p, hp⟩
    · subst hp
      simp
    · rw [List.concat_eq_append] at hp
      subst hp
      have h1 : (pre0 ++ [p]).length ≠ 0 := by simp
      have h2 : (pre0 ++ [p]) ≠ [] := by simp
      have h3 : ((pre0 ++ [p]).length = ((pre0 ++ [p]) ++ 46 :: tl).length - 1) ↔ tl = [] := by
        cases tl with
        | nil => simp
        | cons t tl => simp
      rw [ParseIPv4.getD_before, h3]
      simp [h1, h2]
  by_cases h : pre = [] ∨ tl = [] ∨ pre.getLast? = some 46
  · rw [if_pos (hcond.2 h), if_pos h]
  · rw [if_neg (fun h' => h (hcond.1 h')), if_neg h]

theorem ParseIPv4.loop_succ (s : List Nat) (n i : Nat) (st : ParseState) :
    ParseIPv4.loop s (n + 1) i st =
      match ParseIPv4.step s i st with
      | .error e => .error e
      | .ok st' => ParseIPv4.loop s n (i + 1) st' := rfl

theorem splitOn_dot_nil : ([] : List Nat).splitOn 46 = [[]] := rfl

theorem splitOn_dot_cons_dot (tl : List Nat) :
    (46 :: tl).splitOn 46 = [] :: tl.splitOn 46 := by
  simp [List.splitOn, List.splitOnP_cons]

theorem splitOn_dot_cons_other (c : Nat) (tl : List Nat) (hc : c ≠ 46) :
    (c :: tl).splitOn 46 = (tl.splitOn 46).modifyHead (List.cons c) := by
  simp [List.splitOn, List.splitOnP_cons, hc]

/-- Soundness of the loop: if it runs to the end of `s` from the index after `pre`,
the rest of `s` is cut by its dots into a run of digits that continues the current
field, followed by well-formed fields, one per dot. -/
theorem ParseIPv4.loop_sound (s : List Nat) :
    ∀ (rest pre : List Nat) (st st' : ParseState),
      s = pre ++ rest → st.val ≤ 255 → st.pos ≤ 3 →
      ParseIPv4.loop s rest.length pre.length st = .ok st' →
      ∃ f0 fs, rest.splitOn 46 = f0 :: fs ∧ f0.all isDigit = true ∧
        st.val * 10 ^ f0.length + decimalValue f0 ≤ 255 ∧
        (∀ f ∈ fs, isQuadField f = true) ∧ st'.pos = st.pos + fs.length ∧ st'.pos ≤ 3 ∧
        (f0 = [] → rest = [] ∨ (pre ≠ [] ∧ pre.getLast? ≠ some 46)) := by
  intro rest
  induction rest with
  | nil =>
    intro pre st st' _ hval hpos hloop
    simp only [List.length_nil, ParseIPv4.loop] at hloop
    cases hloop
    exact ⟨[], [], splitOn_dot_nil, rfl, by simpa [decimalValue] using hval, by simp, by simp,
      hpos, fun _ => Or.inl rfl⟩
  | cons c tl ih =>
    intro pre st st' hs hval hpos hloop
    have hs' : s = (pre ++ [c]) ++ tl := by simp [hs]
    have hlen : (pre ++ [c]).length = pre.length + 1 := by simp
    rw [List.length_cons, ParseIPv4.loop_succ] at hloop
    by_cases hc : 48 ≤ c ∧ c ≤ 57
    · rw [ParseIPv4.step_digit s pre c tl st hs hc] at hloop
      by_cases hv : st.val * 10 + c - 48 > 255
      · rw [if_pos hv] at hloop
        cases hloop
      · rw [if_neg hv] at hloop
        simp only at hloop
        rw [← hlen] at hloop
        obtain ⟨g0, gs, hsplit, hdig, hle, hfs, hp, hp3, -⟩ :=
          ih (pre ++ [c]) { st with val := st.val * 10 + c - 48 } st' hs' (by simpa using hv)
            hpos hloop
        refine ⟨c :: g0, gs, ?_, ?_, ?_, hfs, hp, hp3, ?_⟩
        · rw [splitOn_dot_cons_other c tl (by omega), hsplit]
          rfl
        · simp [hdig, isDigit, hc]
        · simp only [List.length_cons, decimalValue]
          simp only at hle
          have e : st.val * 10 ^ (g0.length + 1) + ((c - 48) * 10 ^ g0.length + decimalValue g0)
              = (st.val * 10 + c - 48) * 10 ^ g0.length + decimalValue g0 := by
            have hc' : st.val * 10 + c - 48 = st.val * 10 + (c - 48) := by omega
            rw [hc', pow_succ]
            ring
          rw [e]
          exact hle
        · intro h
          cases h
    · by_cases hdot : c = 46
      · subst hdot
        rw [ParseIPv4.step_dot s pre tl st hs] at hloop
        by_cases hbad : pre = [] ∨ tl = [] ∨ pre.getLast? = some 46
        · rw [if_pos hbad] at hloop
          cases hloop
        · rw [if_neg hbad] at hloop
          by_cases hp3 : st.pos = 3
          · rw [if_pos hp3] at hloop
            cases hloop
          · rw [if_neg hp3] at hloop
            simp only at hloop
            rw [← hlen] at hloop
            obtain ⟨g0, gs, hsplit, hdig, hle, hfs, hp, hp3', hg0⟩ :=
              ih (pre ++ [46])
                { fields := st.fields.set st.pos (st.val % 256), val := 0, pos := st.pos + 1 }
                st' hs' (by simp) (by simp only; omega) hloop
            have hg0ne : g0 ≠ [] := by
              intro h0
              rcases hg0 h0 with h | ⟨-, h⟩
              · exact hbad (Or.inr (Or.inl h))
              · exact h (by simp)
            refine ⟨[], g0 :: gs, ?_, rfl, by simpa [decimalValue] using hval, ?_, ?_, hp3', ?_⟩
            · rw [splitOn_dot_cons_dot, hsplit]
            · intro f hf
              rcases List.mem_cons.1 hf with rfl | hf
              · simp only [isQuadField, isDigitRun, Bool.and_eq_true, decide_eq_true_eq]
                refine ⟨⟨by simpa using hg0ne, hdig⟩, ?_⟩
                simpa using hle
              · exact hfs f hf
            · simp only at hp
              simp only [hp, List.length_cons]
              omega
            · intro _
              right
              exact ⟨fun h => hbad (Or.inl h), fun h => hbad (Or.inr (Or.inr h))⟩
      · rw [ParseIPv4.step_other s pre c tl st hs hc hdot] at hloop
        cases hloop

/-- Soundness of `ParseIPv4`: every string it accepts is a dotted quad. -/
theorem ParseIPv4.isDottedQuad_of_ok (s : GoString) (ip : IPv4) (h : ParseIPv4 s = .ok ip) :
    isDottedQuad s = true := by
  unfold ParseIPv4 at h
  cases hloop : ParseIPv4.loop s s.length 0 ParseState.init with
  | error e => rw [hloop] at h; cases h
  | ok st =>
    rw [hloop] at h
    simp only at h
    by_cases hpos : st.pos < 3
    · rw [if_pos hpos] at h
      cases h
    · obtain ⟨f0, fs, hsplit, hdig, hle, hfs, hp, hp3, hf0⟩ :=
        ParseIPv4.loop_sound s s [] ParseState.init st rfl (by simp [ParseState.init])
          (by simp [ParseState.init]) hloop
      have hlen : fs.length = 3 := by
        simp only [ParseState.init] at hp
        omega
      have hf0ne : f0 ≠ [] := by
        intro h0
        rcases hf0 h0 with hnil | ⟨hne, -⟩
        · subst hnil
          rw [splitOn_dot_nil] at hsplit
          cases hsplit
          simp at hlen
        · exact hne rfl
      unfold isDottedQuad
      rw [hsplit]
      simp only [List.length_cons, hlen, List.all_cons, Bool.and_eq_true, beq_iff_eq,
        List.all_eq_true]
      refine ⟨trivial, ?_, hfs⟩
      simp only [isQuadField, isDigitRun, Bool.and_eq_true, decide_eq_true_eq]
      refine ⟨⟨by simpa using hf0ne, hdig⟩, ?_⟩
      simpa [ParseState.init] using hle

/-- The loop over a run of digits continuing a field whose value stays within 255. -/
theorem ParseIPv4.loop_digits (s : List Nat) :
    ∀ (r pre tl : List Nat) (st : ParseState) (n i : Nat),
      s = pre ++ r ++ tl → n = r.length + tl.length → i = pre.length →
      r.all isDigit = true → st.val * 10 ^ r.length + decimalValue r ≤ 255 →
      ParseIPv4.loop s n i st =
        ParseIPv4.loop s tl.length (i + r.length)
          { st with val := st.val * 10 ^ r.length + decimalValue r } := by
  intro r
  induction r with
  | nil =>
    intro pre tl st n i _ hn _ _ _
    subst hn
    cases st
    simp [decimalValue]
  | cons c r ih =>
    intro pre tl st n i hs hn hi hdig hle
    have hn' : n = (r.length + tl.length) + 1 := by
      rw [hn, List.length_cons]
      omega
    subst hn' hi
    simp only [List.all_cons, Bool.and_eq_true] at hdig
    have hc : 48 ≤ c ∧ c ≤ 57 := by simpa [isDigit] using hdig.1
    have e : st.val * 10 ^ (r.length + 1) + ((c - 48) * 10 ^ r.length + decimalValue r)
        = (st.val * 10 + c - 48) * 10 ^ r.length + decimalValue r := by
      have hc' : st.val * 10 + c - 48 = st.val * 10 + (c - 48) := by omega
      rw [hc', pow_succ]
      ring
    simp only [List.length_cons, decimalValue] at hle ⊢
    rw [e] at hle
    have hv : ¬ st.val * 10 + c - 48 > 255 := by
      have hpow : 1 ≤ 10 ^ r.length := Nat.one_le_pow _ _ (by omega)
      have : st.val * 10 + c - 48 ≤ (st.val * 10 + c - 48) * 10 ^ r.length :=
        Nat.le_mul_of_pos_right _ hpow
      omega
    rw [ParseIPv4.loop_succ,
      ParseIPv4.step_digit s pre c (r ++ tl) st (by simp [hs]) hc, if_neg hv]
    simp only
    rw [ih (pre ++ [c]) tl { st with val := st.val * 10 + c - 48 } (r.length + tl.length)
      (pre.length + 1) (by simp [hs]) rfl (by simp) hdig.2 hle, e]
    congr 1
    omega

/-- The loop over a whole field and the dot that ends it. -/
theorem ParseIPv4.loop_field_dot (s pre r tl : List Nat) (st : ParseState) (n i : Nat)
    (hs : s = pre ++ r ++ 46 :: tl) (hn : n = r.length + (tl.length + 1))
    (hi : i = pre.length) (hr : isQuadField r = true) (htl : tl ≠ [])
    (hval : st.val = 0) (hpos : st.pos < 3) :
    ParseIPv4.loop s n i st =
      ParseIPv4.loop s tl.length (i + r.length + 1)
        { fields := st.fields.set st.pos (decimalValue r), val := 0, pos := st.pos + 1 } := by
  simp only [isQuadField, isDigitRun, Bool.and_eq_true, decide_eq_true_eq] at hr
  obtain ⟨⟨hne, hdig⟩, hle⟩ := hr
  have hne' : r ≠ [] := by simpa using hne
  rw [ParseIPv4.loop_digits s r pre (46 :: tl) st n i hs (by simp [hn]) hi hdig
    (by simpa [hval] using hle)]
  have hi' : i + r.length = (pre ++ r).length := by simp [hi]
  obtain ⟨r0, p, hrp⟩ : ∃ r0 p, r = r0 ++ [p] := by
    rcases List.eq_nil_or_concat r with h | ⟨r0, p, h⟩
    · exact absurd h hne'
    · exact ⟨r0, p, by simpa using h⟩
  have hp : p ≠ 46 := by
    have : isDigit p = true := by
      have := List.all_eq_true.1 hdig p (by simp [hrp])
      exact this
    simp only [isDigit, decide_eq_true_eq] at this
    omega
  have hgood : ¬ (pre ++ r = [] ∨ tl = [] ∨ (pre ++ r).getLast? = some 46) := by
    rintro (h | h | h)
    · simp [hne'] at h
    · exact htl h
    · rw [hrp, ← List.append_assoc, List.getLast?_concat] at h
      exact hp (Option.some.inj h)
  rw [List.length_cons, ParseIPv4.loop_succ, hi',
    ParseIPv4.step_dot s (pre ++ r) tl _ hs, if_neg hgood, if_neg (by simp only; omega)]
  simp only [hval, Nat.zero_mul, Nat.zero_add, Nat.mod_eq_of_lt (Nat.lt_succ_of_le hle)]

/-- The value of `CreateIPv4` on four bytes: the first in the most significant byte. -/
theorem CreateIPv4_addr (a b c d : Nat) (ha : a ≤ 255) (hb : b ≤ 255) (hc : c ≤ 255)
    (hd : d ≤ 255) :
    (CreateIPv4 a b c d).addr = a * 2 ^ 24 + b * 2 ^ 16 + c * 2 ^ 8 + d := by
  unfold CreateIPv4
  simp only [Nat.shiftLeft_eq]
  rw [Nat.mod_eq_of_lt (by omega), Nat.mod_eq_of_lt (by omega), Nat.mod_eq_of_lt (by omega)]
  have h1 : c * 2 ^ 8 ||| d = c * 2 ^ 8 + d := by
    rw [Nat.mul_comm c, ← Nat.mul_add_lt_is_or (by omega) c]
  have h2 : b * 2 ^ 16 ||| (c * 2 ^ 8 + d) = b * 2 ^ 16 + (c * 2 ^ 8 + d) := by
    rw [Nat.mul_comm b, ← Nat.mul_add_lt_is_or (by omega) b]
  have h3 : a * 2 ^ 24 ||| (b * 2 ^ 16 + (c * 2 ^ 8 + d)) =
      a * 2 ^ 24 + (b * 2 ^ 16 + (c * 2 ^ 8 + d)) := by
    rw [Nat.mul_comm a, ← Nat.mul_add_lt_is_or (by omega) a]
  rw [Nat.or_assoc, Nat.or_assoc, h1, h2, h3]
  omega

/-- Completeness of `ParseIPv4`: four well-formed fields joined by dots parse to the
address of their values. -/
theorem ParseIPv4.ok_of_fields (r1 r2 r3 r4 : List Nat) (h1 : isQuadField r1 = true)
    (h2 : isQuadField r2 = true) (h3 : isQuadField r3 = true) (h4 : isQuadField r4 = true) :
    ParseIPv4 (r1 ++ [46] ++ r2 ++ [46] ++ r3 ++ [46] ++ r4) =
      .ok (CreateIPv4 (decimalValue r1) (decimalValue r2) (decimalValue r3)
        (decimalValue r4)) := by
  have h4' := h4
  simp only [isQuadField, isDigitRun, Bool.and_eq_true, decide_eq_true_eq] at h4'
  obtain ⟨⟨hne4, hdig4⟩, hle4⟩ := h4'
  have hne2 : r2 ≠ [] := by
    simp only [isQuadField, isDigitRun, Bool.and_eq_true] at h2
    simpa using h2.1.1
  have hne3 : r3 ≠ [] := by
    simp only [isQuadField, isDigitRun, Bool.and_eq_true] at h3
    simpa using h3.1.1
  have hne4' : r4 ≠ [] := by simpa using hne4
  generalize hs : r1 ++ [46] ++ r2 ++ [46] ++ r3 ++ [46] ++ r4 = s
  unfold ParseIPv4
  rw [ParseIPv4.loop_field_dot s [] r1 (r2 ++ [46] ++ r3 ++ [46] ++ r4) ParseState.init
      s.length 0 (by simp [← hs]) (by simp [← hs]) rfl h1 (by simp [hne2]) rfl
      (by simp [ParseState.init]),
    ParseIPv4.loop_field_dot s (r1 ++ [46]) r2 (r3 ++ [46] ++ r4) _ _ _ (by simp [← hs])
      (by simp) (by simp) h2 (by simp [hne3]) rfl (by simp [ParseState.init]),
    ParseIPv4.loop_field_dot s (r1 ++ [46] ++ r2 ++ [46]) r3 r4 _ _ _ (by simp [← hs])
      (by simp) (by simp; omega) h3 hne4' rfl (by simp [ParseState.init]),
    ParseIPv4.loop_digits s r4 (r1 ++ [46] ++ r2 ++ [46] ++ r3 ++ [46]) [] _ _ _
      (by simp [← hs]) (by simp) (by simp; omega) hdig4 (by simpa using hle4)]
  simp [ParseIPv4.loop, ParseState.init, Nat.mod_eq_of_lt (Nat.lt_succ_of_le hle4)]

/-- A string is a dotted quad exactly when it is four well-formed fields joined by
three dots. -/
theorem isDottedQuad_iff (s : GoString) :
    (∃ r1 r2 r3 r4, isQuadField r1 = true ∧ isQuadField r2 = true ∧ isQuadField r3 = true ∧
        isQuadField r4 = true ∧ s = r1 ++ [46] ++ r2 ++ [46] ++ r3 ++ [46] ++ r4) ↔
      isDottedQuad s = true := by
  constructor
  · rintro ⟨r1, r2, r3, r4, h1, h2, h3, h4, rfl⟩
    exact ParseIPv4.isDottedQuad_of_ok _ _ (ParseIPv4.ok_of_fields r1 r2 r3 r4 h1 h2 h3 h4)
  · intro h
    have hjoin : [46].intercalate (s.splitOn 46) = s :=
      List.intercalate_splitOn s 46
    unfold isDottedQuad at h
    simp only [Bool.and_eq_true, beq_iff_eq, List.all_eq_true] at h
    obtain ⟨hlen, hall⟩ := h
    match hfs : s.splitOn 46, hlen, hall with
    | [r1, r2, r3, r4], _, hall =>
      rw [hfs] at hjoin
      refine ⟨r1, r2, r3, r4, hall r1 (by simp), hall r2 (by simp), hall r3 (by simp),
        hall r4 (by simp), ?_⟩
      rw [← hjoin]
      simp [List.intercalate]

theorem isQuadField_of_writesNumber (r : List Nat) (a : Nat) (ha : a ≤ 255)
    (h : writesNumber r a = true) : isQuadField r = true ∧ decimalValue r = a := by
  simp only [writesNumber, Bool.and_eq_true, decide_eq_true_eq] at h
  obtain ⟨hrun, hval⟩ := h
  refine ⟨?_, hval⟩
  simp only [isQuadField, Bool.and_eq_true, decide_eq_true_eq]
  exact ⟨hrun, by omega⟩

/-- Running `n + 1` iterations is running `n` iterations and then one more. -/
theorem ParseIPv4.loop_succ_last (s : List Nat) :
    ∀ (n i : Nat) (st : ParseState),
      ParseIPv4.loop s (n + 1) i st =
        match ParseIPv4.loop s n i st with
        | .error e => .error e
        | .ok st1 => ParseIPv4.step s (i + n) st1 := by
  intro n
  induction n with
  | zero =>
    intro i st
    simp only [ParseIPv4.loop, Nat.add_zero]
    cases ParseIPv4.step s i st <;> rfl
  | succ n ih =>
    intro i st
    rw [ParseIPv4.loop_succ s (n + 1) i st, ParseIPv4.loop_succ s n i st]
    cases hstep : ParseIPv4.step s i st with
    | error e => rfl
    | ok st1 =>
      simp only
      rw [ih (i + 1) st1]
      have hidx : i + 1 + n = i + (n + 1) := by omega
      rw [hidx]

/-- The bounds on the locals of `ParseIPv4` are kept by every iteration. -/
theorem ParseIPv4.step_keeps_bounds (s : List Nat) (i : Nat) (st st' : ParseState)
    (hpos : st.pos ≤ 3) (hlen : st.fields.length = 3)
    (hstep : ParseIPv4.step s i st = .ok st') :
    st'.val ≤ 255 ∧ st'.pos ≤ 3 ∧ st'.fields.length = 3 := by
  unfold ParseIPv4.step at hstep
  simp only at hstep
  split at hstep
  · split at hstep
    · cases hstep
    · cases hstep
      exact ⟨by simp only; omega, hpos, hlen⟩
  · split at hstep
    · split at hstep
      · cases hstep
      · split at hstep
        · cases hstep
        · cases hstep
          exact ⟨by simp, by simp only; omega, by simp [hlen]⟩
    · cases hstep

/-- The bounds hold in every state the loop reaches from the initial one. -/
theorem ParseIPv4.reached_bounds (s : List Nat) :
    ∀ (n : Nat) (st : ParseState), ParseIPv4.loop s n 0 ParseState.init = .ok st →
      st.val ≤ 255 ∧ st.pos ≤ 3 ∧ st.fields.length = 3 := by
  intro n
  induction n with
  | zero =>
    intro st h
    simp only [ParseIPv4.loop] at h
    cases h
    simp [ParseState.init]
  | succ n ih =>
    intro st h
    rw [ParseIPv4.loop_succ_last] at h
    cases hl : ParseIPv4.loop s n 0 ParseState.init with
    | error e => rw [hl] at h; cases h
    | ok st1 =>
      rw [hl] at h
      obtain ⟨-, hp, hf⟩ := ih st1 hl
      exact ParseIPv4.step_keeps_bounds s (0 + n) st1 st hp hf h

/-! ## Lemmas on the address sets -/

theorem IPv4Set.mem_AddIPv4 (s : IPv4Set) (ip x : IPv4) :
    x ∈ (s.AddIPv4 ip).set ↔ x ∈ s.set ∨ x = ip := by
  unfold IPv4Set.AddIPv4
  by_cases h : ip ∈ s.set
  · rw [if_pos h]
    constructor
    · exact Or.inl
    · rintro (hx | rfl)
      · exact hx
      · exact h
  · rw [if_neg h]
    simp

theorem IPv6Set.mem_AddIPv6 (s : IPv6Set) (ip x : IPv6) :
    x ∈ (s.AddIPv6 ip).set ↔ x ∈ s.set ∨ x = ip := by
  unfold IPv6Set.AddIPv6
  by_cases h : ip ∈ s.set
  · rw [if_pos h]
    constructor
    · exact Or.inl
    · rintro (hx | rfl)
      · exact hx
      · exact h
  · rw [if_neg h]
    simp

theorem IPv4Set.mem_foldl_AddIPv4 (l : List IPv4) (s : IPv4Set) (x : IPv4) :
    x ∈ (l.foldl IPv4Set.AddIPv4 s).set ↔ x ∈ s.set ∨ x ∈ l := by
  induction l generalizing s with
  | nil => simp
  | cons ip l ih =>
    rw [List.foldl_cons, ih, IPv4Set.mem_AddIPv4, List.mem_cons]
    tauto

theorem IPv6Set.mem_foldl_AddIPv6 (l : List IPv6) (s : IPv6Set) (x : IPv6) :
    x ∈ (l.foldl IPv6Set.AddIPv6 s).set ↔ x ∈ s.set ∨ x ∈ l := by
  induction l generalizing s with
  | nil => simp
  | cons ip l ih =>
    rw [List.foldl_cons, ih, IPv6Set.mem_AddIPv6, List.mem_cons]
    tauto

theorem IPv4Set.mem_AddIPv4Set (s other : IPv4Set) (x : IPv4) :
    x ∈ (s.AddIPv4Set other).set ↔ x ∈ s.set ∨ x ∈ other.set :=
  IPv4Set.mem_foldl_AddIPv4 other.set s x

theorem IPv6Set.mem_AddIPv6Set (s other : IPv6Set) (x : IPv6) :
    x ∈ (s.AddIPv6Set other).set ↔ x ∈ s.set ∨ x ∈ other.set :=
  IPv6Set.mem_foldl_AddIPv6 other.set s x

theorem IPv4Set.containsIPv4_iff (s : IPv4Set) (x : IPv4) :
    s.ContainsIPv4 x = true ↔ x ∈ s.set := by
  simp [IPv4Set.ContainsIPv4]

theorem IPv6Set.containsIPv6_iff (s : IPv6Set) (x : IPv6) :
    s.ContainsIPv6 x = true ↔ x ∈ s.set := by
  simp [IPv6Set.ContainsIPv6]

/-- Inserting addresses that are all present already changes nothing. -/
theorem IPv4Set.foldl_AddIPv4_of_mem (l : List IPv4) (s : IPv4Set) (h : ∀ x ∈ l, x ∈ s.set) :
    l.foldl IPv4Set.AddIPv4 s = s := by
  induction l with
  | nil => rfl
  | cons ip l ih =>
    have hip : s.AddIPv4 ip = s := by
      unfold IPv4Set.AddIPv4
      rw [if_pos (h ip (List.mem_cons_self ip l))]
    rw [List.foldl_cons, hip]
    exact ih (fun x hx => h x (List.mem_cons_of_mem ip hx))

theorem IPv6Set.foldl_AddIPv6_of_mem (l : List IPv6) (s : IPv6Set) (h : ∀ x ∈ l, x ∈ s.set) :
    l.foldl IPv6Set.AddIPv6 s = s := by
  induction l with
  | nil => rfl
  | cons ip l ih =>
    have hip : s.AddIPv6 ip = s := by
      unfold IPv6Set.AddIPv6
      rw [if_pos (h ip (List.mem_cons_self ip l))]
    rw [List.foldl_cons, hip]
    exact ih (fun x hx => h x (List.mem_cons_of_mem ip hx))

/-! ## The request handler -/

/-- Whatever the live sets hold, `isTorBlocked` is true after the membership checks:
it starts as `true` and both branches can only assign `true`. -/
theorem TorBlock.isTorBlocked_eq_true (a : TorBlock) (remoteIP : NetIP) :
    a.isTorBlocked remoteIP = true := by
  unfold TorBlock.isTorBlocked
  split <;> split <;> rfl

theorem TorBlock.ServeHTTP_of_parsed (parseIP : GoString → Option NetIP) (a : TorBlock)
    (req : Request) (remoteIP : NetIP) (hen : a.enabled = true)
    (hparse : parseIP (a.remoteHost req) = some remoteIP) :
    a.ServeHTTP parseIP req =
      if a.redirectHostname ≠ [] then
        .redirect (a.redirectProtocol ++ a.redirectHostname ++
          (if a.redirectSavePath then req.RequestURI else [])) StatusFound
      else .writeHeader StatusForbidden := by
  unfold TorBlock.ServeHTTP
  simp only [hen, hparse, TorBlock.isTorBlocked_eq_true]
  by_cases hs : a.redirectSavePath = true <;> by_cases hh : a.redirectHostname = [] <;>
    simp [hs, hh]

/-! ## The refresh cycle -/

theorem TorBlock.UpdateBlockedIPs_of_failed (parseIP : GoString → Option NetIP)
    (findAllString : GoString → List GoString) (fetched : FetchResult) (a : TorBlock)
    (hfail : fetchFailed fetched = true) :
    a.UpdateBlockedIPs parseIP findAllString fetched = a := by
  unfold TorBlock.UpdateBlockedIPs
  cases fetched with
  | error e => rfl
  | ok res =>
    by_cases hst : res.StatusCode = 200
    · cases hb : res.Body with
      | error e => simp [hst, hb]
      | ok body => simp [fetchFailed, hst, hb] at hfail
    · simp [hst]

theorem TorBlock.mem_blockedIPs_UpdateBlockedIPs (parseIP : GoString → Option NetIP)
    (findAllString : GoString → List GoString) (fetched : FetchResult) (a : TorBlock)
    (x : IPv4) (hx : x ∈ a.blockedIPs.set) :
    x ∈ (a.UpdateBlockedIPs parseIP findAllString fetched).blockedIPs.set := by
  unfold TorBlock.UpdateBlockedIPs
  split
  · exact hx
  · split
    · exact hx
    · split
      · exact hx
      · exact (IPv4Set.mem_AddIPv4Set _ _ x).2 (Or.inl hx)

theorem TorBlock.mem_blockedIPv6s_UpdateBlockedIPs (parseIP : GoString → Option NetIP)
    (findAllString : GoString → List GoString) (fetched : FetchResult) (a : TorBlock)
    (x : IPv6) (hx : x ∈ a.blockedIPv6s.set) :
    x ∈ (a.UpdateBlockedIPs parseIP findAllString fetched).blockedIPv6s.set := by
  unfold TorBlock.UpdateBlockedIPs
  split
  · exact hx
  · split
    · exact hx
    · split
      · exact hx
      · exact (IPv6Set.mem_AddIPv6Set _ _ x).2 (Or.inl hx)

theorem TorBlock.mem_blockedIPs_UpdateWorker (parseIP : GoString → Option NetIP)
    (findAllString : GoString → List GoString) (fetches : List FetchResult) (a : TorBlock)
    (x : IPv4) (hx : x ∈ a.blockedIPs.set) :
    x ∈ (a.UpdateWorker parseIP findAllString fetches).blockedIPs.set := by
  induction fetches generalizing a with
  | nil => exact hx
  | cons fetched rest ih =>
    exact ih _ (TorBlock.mem_blockedIPs_UpdateBlockedIPs parseIP findAllString fetched a x hx)

theorem TorBlock.mem_blockedIPv6s_UpdateWorker (parseIP : GoString → Option NetIP)
    (findAllString : GoString → List GoString) (fetches : List FetchResult) (a : TorBlock)
    (x : IPv6) (hx : x ∈ a.blockedIPv6s.set) :
    x ∈ (a.UpdateWorker parseIP findAllString fetches).blockedIPv6s.set := by
  induction fetches generalizing a with
  | nil => exact hx
  | cons fetched rest ih =>
    exact ih _ (TorBlock.mem_blockedIPv6s_UpdateBlockedIPs parseIP findAllString fetched a x hx)

/-- The sets built by the loop over the found strings, from any two starting sets. -/
theorem UpdateBlockedIPs.mem_foldl_addFound (parseIP : GoString → Option NetIP)
    (foundIPStrs : List GoString) (acc : IPv4Set × IPv6Set) (x : IPv4) (y : IPv6) :
    (x ∈ (foundIPStrs.foldl (UpdateBlockedIPs.addFound parseIP) acc).1.set ↔
        x ∈ acc.1.set ∨
          ∃ t ∈ foundIPStrs, isIPv4Literal parseIP t = true ∧ ParseIPv4 t = .ok x) ∧
      (y ∈ (foundIPStrs.foldl (UpdateBlockedIPs.addFound parseIP) acc).2.set ↔
        y ∈ acc.2.set ∨
          ∃ t ∈ foundIPStrs, isIPv4Literal parseIP t = false ∧
            ParseIPv6 parseIP t = .ok y) := by
  induction foundIPStrs generalizing acc with
  | nil => simp
  | cons t rest ih =>
    rw [List.foldl_cons]
    obtain ⟨ih4, ih6⟩ := ih (UpdateBlockedIPs.addFound parseIP acc t)
    rw [ih4, ih6]
    simp only [List.mem_cons, exists_eq_or_imp]
    unfold UpdateBlockedIPs.addFound
    by_cases hv4 : isIPv4Literal parseIP t = true
    · rw [if_pos hv4]
      cases h4 : ParseIPv4 t with
      | error e => simp [hv4]
      | ok ip =>
        simp only [IPv4Set.mem_AddIPv4, hv4]
        constructor
        · constructor
          · rintro ((h | rfl) | h)
            · exact Or.inl h
            · exact Or.inr (Or.inl ⟨trivial, rfl⟩)
            · exact Or.inr (Or.inr h)
          · rintro (h | ⟨-, h⟩ | h)
            · exact Or.inl (Or.inl h)
            · exact Or.inl (Or.inr (Except.ok.inj h).symm)
            · exact Or.inr h
        · simp
    · rw [if_neg hv4]
      have hv4f : isIPv4Literal parseIP t = false := by simpa using hv4
      cases h6 : ParseIPv6 parseIP t with
      | error e => simp [hv4f]
      | ok ip =>
        simp only [IPv6Set.mem_AddIPv6, hv4f]
        constructor
        · simp
        · constructor
          · rintro ((h | rfl) | h)
            · exact Or.inl h
            · exact Or.inr (Or.inl ⟨trivial, rfl⟩)
            · exact Or.inr (Or.inr h)
          · rintro (h | ⟨-, h⟩ | h)
            · exact Or.inl (Or.inl h)
            · exact Or.inl (Or.inr (Except.ok.inj h).symm)
            · exact Or.inr h

/-- Where the members of the live sets after one cycle come from: they were members
before, or the cycle fetched successfully and a found string parses to them. -/
theorem TorBlock.mem_UpdateBlockedIPs_origin (parseIP : GoString → Option NetIP)
    (findAllString : GoString → List GoString) (fetched : FetchResult) (a : TorBlock)
    (x : IPv4) (y : IPv6) :
    (x ∈ (a.UpdateBlockedIPs parseIP findAllString fetched).blockedIPs.set →
        x ∈ a.blockedIPs.set ∨
          ∃ t, extractedFrom findAllString [fetched] t ∧ ParseIPv4 t = .ok x) ∧
      (y ∈ (a.UpdateBlockedIPs parseIP findAllString fetched).blockedIPv6s.set →
        y ∈ a.blockedIPv6s.set ∨
          ∃ t, extractedFrom findAllString [fetched] t ∧ ParseIPv6 parseIP t = .ok y) := by
  unfold TorBlock.UpdateBlockedIPs
  cases fetched with
  | error e => exact ⟨Or.inl, Or.inl⟩
  | ok res =>
    by_cases hst : res.StatusCode = 200
    · cases hb : res.Body with
      | error e =>
        simp only [hst, hb]
        exact ⟨Or.inl, Or.inl⟩
      | ok body =>
        simp only [hst, hb, ne_eq, not_true_eq_false, if_false]
        have hfound := UpdateBlockedIPs.mem_foldl_addFound parseIP (findAllString body)
          (CreateIPv4Set, CreateIPv6Set) x y
        constructor
        · intro hx
          rcases (IPv4Set.mem_AddIPv4Set _ _ x).1 hx with h | h
          · exact Or.inl h
          · rcases hfound.1.1 h with h0 | ⟨t, ht, -, hp⟩
            · simp [CreateIPv4Set] at h0
            · exact Or.inr ⟨t, ⟨.ok res, List.mem_singleton.2 rfl, res, body, rfl, hst, hb, ht⟩,
                hp⟩
        · intro hy
          rcases (IPv6Set.mem_AddIPv6Set _ _ y).1 hy with h | h
          · exact Or.inl h
          · rcases hfound.2.1 h with h0 | ⟨t, ht, -, hp⟩
            · simp [CreateIPv6Set] at h0
            · exact Or.inr ⟨t, ⟨.ok res, List.mem_singleton.2 rfl, res, body, rfl, hst, hb, ht⟩,
                hp⟩
    · simp only [ne_eq, hst, not_false_eq_true, if_true]
      exact ⟨Or.inl, Or.inl⟩

theorem extractedFrom_mono (findAllString : GoString → List GoString)
    (fetches more : List FetchResult) (t : GoString)
    (h : extractedFrom findAllString fetches t) (hsub : ∀ f ∈ fetches, f ∈ more) :
    extractedFrom findAllString more t := by
  obtain ⟨f, hf, rest⟩ := h
  exact ⟨f, hsub f hf, rest⟩

/-- Where the members of the live sets after a sequence of cycles come from. -/
theorem TorBlock.mem_UpdateWorker_origin (parseIP : GoString → Option NetIP)
    (findAllString : GoString → List GoString) (fetches : List FetchResult) :
    ∀ (a : TorBlock) (x : IPv4) (y : IPv6),
      (x ∈ (a.UpdateWorker parseIP findAllString fetches).blockedIPs.set →
          x ∈ a.blockedIPs.set ∨
            ∃ t, extractedFrom findAllString fetches t ∧ ParseIPv4 t = .ok x) ∧
        (y ∈ (a.UpdateWorker parseIP findAllString fetches).blockedIPv6s.set →
          y ∈ a.blockedIPv6s.set ∨
            ∃ t, extractedFrom findAllString fetches t ∧ ParseIPv6 parseIP t = .ok y) := by
  induction fetches with
  | nil =>
    intro a x y
    exact ⟨Or.inl, Or.inl⟩
  | cons fetched rest ih =>
    intro a x y
    have hstep := TorBlock.mem_UpdateBlockedIPs_origin parseIP findAllString fetched a x y
    have hrest := ih (a.UpdateBlockedIPs parseIP findAllString fetched) x y
    constructor
    · intro hx
      rcases hrest.1 hx with h | ⟨t, ht, hp⟩
      · rcases hstep.1 h with h | ⟨t, ht, hp⟩
        · exact Or.inl h
        · exact Or.inr ⟨t, extractedFrom_mono findAllString _ _ t ht (by simp), hp⟩
      · exact Or.inr ⟨t, extractedFrom_mono findAllString _ _ t ht
          (fun f hf => List.mem_cons_of_mem fetched hf), hp⟩
    · intro hy
      rcases hrest.2 hy with h | ⟨t, ht, hp⟩
      · rcases hstep.2 h with h | ⟨t, ht, hp⟩
        · exact Or.inl h
        · exact Or.inr ⟨t, extractedFrom_mono findAllString _ _ t ht (by simp), hp⟩
      · exact Or.inr ⟨t, extractedFrom_mono findAllString _ _ t ht
          (fun f hf => List.mem_cons_of_mem fetched hf), hp⟩

/-- Cycles whose fetches all fail leave the TorBlock as it is. -/
theorem TorBlock.UpdateWorker_of_failed (parseIP : GoString → Option NetIP)
    (findAllString : GoString → List GoString) (fetches : List FetchResult) (a : TorBlock)
    (hfail : ∀ f ∈ fetches, fetchFailed f = true) :
    a.UpdateWorker parseIP findAllString fetches = a := by
  induction fetches generalizing a with
  | nil => rfl
  | cons fetched rest ih =>
    have h1 : a.UpdateBlockedIPs parseIP findAllString fetched = a :=
      TorBlock.UpdateBlockedIPs_of_failed parseIP findAllString fetched a
        (hfail fetched (List.mem_cons_self fetched rest))
    have h2 : a.UpdateWorker parseIP findAllString (fetched :: rest) =
        (a.UpdateBlockedIPs parseIP findAllString fetched).UpdateWorker parseIP findAllString
          rest := rfl
    rw [h2, h1]
    exact ih a (fun f hf => hfail f (List.mem_cons_of_mem fetched hf))

/-- A TorBlock that `New` returns is the initial one after the first refresh cycle. -/
theorem New_eq_ok (validRequestURI : GoString → Bool) (parseIP : GoString → Option NetIP)
    (findAllString : GoString → List GoString) (config : Config) (name : GoString)
    (fetched : FetchResult) (a : TorBlock)
    (hnew : New validRequestURI parseIP findAllString config name fetched = .ok a) :
    a = (New.initial config name).UpdateBlockedIPs parseIP findAllString fetched := by
  unfold New at hnew
  split at hnew
  · cases hnew
  · split at hnew
    · cases hnew
    · cases hnew
      rfl

/-! ## Claims on the address codec -/

/-- C4: for values `a b c d` in [0,255] and any way of writing each as a non-empty run
of ASCII digits (leading zeros allowed), `ParseIPv4` of the four runs joined by dots
succeeds with `CreateIPv4 a b c d`, whose 32-bit value is
`a*2^24 + b*2^16 + c*2^8 + d`; so two such strings writing the same four values parse
to the same result. -/
theorem C4_dotted_quad_parses (a b c d : Nat) (r1 r2 r3 r4 q1 q2 q3 q4 : List Nat)
    (ha : a ≤ 255) (hb : b ≤ 255) (hc : c ≤ 255) (hd : d ≤ 255)
    (hr1 : writesNumber r1 a = true) (hr2 : writesNumber r2 b = true)
    (hr3 : writesNumber r3 c = true) (hr4 : writesNumber r4 d = true)
    (hq1 : writesNumber q1 a = true) (hq2 : writesNumber q2 b = true)
    (hq3 : writesNumber q3 c = true) (hq4 : writesNumber q4 d = true) :
    ParseIPv4 (r1 ++ [46] ++ r2 ++ [46] ++ r3 ++ [46] ++ r4) = .ok (CreateIPv4 a b c d) ∧
      (CreateIPv4 a b c d).addr = a * 2 ^ 24 + b * 2 ^ 16 + c * 2 ^ 8 + d ∧
      ParseIPv4 (q1 ++ [46] ++ q2 ++ [46] ++ q3 ++ [46] ++ q4) =
        ParseIPv4 (r1 ++ [46] ++ r2 ++ [46] ++ r3 ++ [46] ++ r4) := by
  obtain ⟨f1, v1⟩ := isQuadField_of_writesNumber r1 a ha hr1
  obtain ⟨f2, v2⟩ := isQuadField_of_writesNumber r2 b hb hr2
  obtain ⟨f3, v3⟩ := isQuadField_of_writesNumber r3 c hc hr3
  obtain ⟨f4, v4⟩ := isQuadField_of_writesNumber r4 d hd hr4
  obtain ⟨g1, w1⟩ := isQuadField_of_writesNumber q1 a ha hq1
  obtain ⟨g2, w2⟩ := isQuadField_of_writesNumber q2 b hb hq2
  obtain ⟨g3, w3⟩ := isQuadField_of_writesNumber q3 c hc hq3
  obtain ⟨g4, w4⟩ := isQuadField_of_writesNumber q4 d hd hq4
  have hr := ParseIPv4.ok_of_fields r1 r2 r3 r4 f1 f2 f3 f4
  have hq := ParseIPv4.ok_of_fields q1 q2 q3 q4 g1 g2 g3 g4
  rw [v1, v2, v3, v4] at hr
  rw [w1, w2, w3, w4] at hq
  exact ⟨hr, CreateIPv4_addr a b c d ha hb hc hd, hq.trans hr.symm⟩

theorem C4_dotted_quad_parses_witness :
    ParseIPv4 (go "001.2.03.0255") = .ok (CreateIPv4 1 2 3 255) ∧
      (CreateIPv4 1 2 3 255).addr = 1 * 2 ^ 24 + 2 * 2 ^ 16 + 3 * 2 ^ 8 + 255 ∧
      ParseIPv4 (go "1.2.3.255") = ParseIPv4 (go "001.2.03.0255") :=
  C4_dotted_quad_parses 1 2 3 255 (go "001") (go "2") (go "03") (go "0255")
    (go "1") (go "2") (go "3") (go "255")
    (by decide) (by decide) (by decide) (by decide) (by decide) (by decide) (by decide)
    (by decide) (by decide) (by decide) (by decide) (by decide)

/-- C5: a string that is not four non-empty runs of ASCII digits, each of decimal
value at most 255, joined by exactly three dots, is rejected by `ParseIPv4` with an
error. This covers an empty field, a field above 255, a byte that is neither a digit
nor a dot, and fewer or more than three dots. -/
theorem C5_malformed_is_rejected (s : GoString)
    (h : ¬ ∃ r1 r2 r3 r4, isQuadField r1 = true ∧ isQuadField r2 = true ∧
      isQuadField r3 = true ∧ isQuadField r4 = true ∧
      s = r1 ++ [46] ++ r2 ++ [46] ++ r3 ++ [46] ++ r4) :
    ∃ e, ParseIPv4 s = .error e := by
  cases hp : ParseIPv4 s with
  | error e => exact ⟨e, rfl⟩
  | ok ip =>
    exact absurd ((isDottedQuad_iff s).2 (ParseIPv4.isDottedQuad_of_ok s ip hp)) h

theorem C5_malformed_is_rejected_witness :
    (∃ e, ParseIPv4 (go "") = .error e) ∧ (∃ e, ParseIPv4 (go "1.2.3") = .error e) ∧
      (∃ e, ParseIPv4 (go "1.2.3.4.5") = .error e) ∧
      (∃ e, ParseIPv4 (go "1.2.3.256") = .error e) ∧
      (∃ e, ParseIPv4 (go "1..2.3") = .error e) ∧
      (∃ e, ParseIPv4 (go "1.2.3.") = .error e) ∧
      (∃ e, ParseIPv4 (go "a.b.c.d") = .error e) ∧
      (∃ e, ParseIPv4 (go ".1.2.3") = .error e) :=
  ⟨C5_malformed_is_rejected (go "")
      (fun h => absurd ((isDottedQuad_iff _).1 h) (by decide)),
   C5_malformed_is_rejected (go "1.2.3")
      (fun h => absurd ((isDottedQuad_iff _).1 h) (by decide)),
   C5_malformed_is_rejected (go "1.2.3.4.5")
      (fun h => absurd ((isDottedQuad_iff _).1 h) (by decide)),
   C5_malformed_is_rejected (go "1.2.3.256")
      (fun h => absurd ((isDottedQuad_iff _).1 h) (by decide)),
   C5_malformed_is_rejected (go "1..2.3")
      (fun h => absurd ((isDottedQuad_iff _).1 h) (by decide)),
   C5_malformed_is_rejected (go "1.2.3.")
      (fun h => absurd ((isDottedQuad_iff _).1 h) (by decide)),
   C5_malformed_is_rejected (go "a.b.c.d")
      (fun h => absurd ((isDottedQuad_iff _).1 h) (by decide)),
   C5_malformed_is_rejected (go ".1.2.3")
      (fun h => absurd ((isDottedQuad_iff _).1 h) (by decide))⟩

/-! ## Claims on the request handler -/

/-- C1, evaluated on the code: with the live IPv4 set holding only 176.10.99.200, the
request of the repository's test from 127.0.0.1 (not a member, no redirect configured)
is not forwarded to the next handler: `ServeHTTP` writes status 403. -/
theorem C1_nonmember_is_rejected :
    clientIsMember (exampleTorBlock true ⟨[CreateIPv4 176 10 99 200]⟩ ⟨[]⟩ [])
        (netIPv4 127 0 0 1) = false ∧
      (exampleTorBlock true ⟨[CreateIPv4 176 10 99 200]⟩ ⟨[]⟩ []).ServeHTTP
        (parseIPTable [(go "127.0.0.1", netIPv4 127 0 0 1)])
        (exampleRequest (go "127.0.0.1") (go "/")) = .writeHeader 403 := by
  decide

/-- C2: an enabled TorBlock without redirect hostname answers a request whose client
address parses and is a member of the live set of its family with status 403, and does
not hand it to the next handler. -/
theorem C2_member_without_redirect_is_forbidden (parseIP : GoString → Option NetIP)
    (a : TorBlock) (req : Request) (remoteIP : NetIP) (hen : a.enabled = true)
    (hhost : a.redirectHostname = [])
    (hparse : parseIP (a.remoteHost req) = some remoteIP)
    (_hmem : clientIsMember a remoteIP = true) :
    a.ServeHTTP parseIP req = .writeHeader 403 := by
  rw [TorBlock.ServeHTTP_of_parsed parseIP a req remoteIP hen hparse]
  simp [hhost, StatusForbidden]

theorem C2_member_without_redirect_is_forbidden_witness :
    clientIsMember (exampleTorBlock true ⟨[CreateIPv4 203 0 113 5]⟩ ⟨[]⟩ [])
        (netIPv4 203 0 113 5) = true ∧
      (exampleTorBlock true ⟨[CreateIPv4 203 0 113 5]⟩ ⟨[]⟩ []).ServeHTTP
        (parseIPTable [(go "203.0.113.5", netIPv4 203 0 113 5)])
        (exampleRequest (go "203.0.113.5") (go "/foo?x=1")) = .writeHeader 403 :=
  ⟨by decide,
   C2_member_without_redirect_is_forbidden
     (parseIPTable [(go "203.0.113.5", netIPv4 203 0 113 5)])
     (exampleTorBlock true ⟨[CreateIPv4 203 0 113 5]⟩ ⟨[]⟩ [])
     (exampleRequest (go "203.0.113.5") (go "/foo?x=1")) (netIPv4 203 0 113 5)
     (by decide) (by decide) (by decide) (by decide)⟩

/-- C3: an enabled TorBlock with a non-empty redirect hostname answers a request whose
client address parses and is a member of the live set of its family with a 302
redirect to `redirectProtocol ++ redirectHostname`, followed by the request's
path-and-query exactly when `redirectSavePath` is set; the next handler is not
invoked. -/
theorem C3_member_with_redirect_is_redirected (parseIP : GoString → Option NetIP)
    (a : TorBlock) (req : Request) (remoteIP : NetIP) (hen : a.enabled = true)
    (hhost : a.redirectHostname ≠ [])
    (hparse : parseIP (a.remoteHost req) = some remoteIP)
    (_hmem : clientIsMember a remoteIP = true) :
    a.ServeHTTP parseIP req =
      .redirect (a.redirectProtocol ++ a.redirectHostname ++
        (if a.redirectSavePath = true then req.RequestURI else [])) 302 := by
  rw [TorBlock.ServeHTTP_of_parsed parseIP a req remoteIP hen hparse]
  simp [hhost, StatusFound]

theorem C3_member_with_redirect_is_redirected_witness :
    (exampleTorBlock true ⟨[CreateIPv4 203 0 113 5]⟩ ⟨[]⟩ (go "example.onion")).ServeHTTP
        (parseIPTable [(go "203.0.113.5", netIPv4 203 0 113 5)])
        (exampleRequest (go "203.0.113.5") (go "/foo?x=1")) =
      .redirect (go "http://example.onion/foo?x=1") 302 :=
  C3_member_with_redirect_is_redirected
    (parseIPTable [(go "203.0.113.5", netIPv4 203 0 113 5)])
    (exampleTorBlock true ⟨[CreateIPv4 203 0 113 5]⟩ ⟨[]⟩ (go "example.onion"))
    (exampleRequest (go "203.0.113.5") (go "/foo?x=1")) (netIPv4 203 0 113 5)
    (by decide) (by decide) (by decide) (by decide)

/-- C6: a TorBlock with `enabled = false` forwards every request to the next handler,
whatever the live sets, the redirect configuration, the request and `net.ParseIP`. -/
theorem C6_disabled_forwards (parseIP : GoString → Option NetIP) (a : TorBlock)
    (req : Request) (hdis : a.enabled = false) :
    a.ServeHTTP parseIP req = .next := by
  unfold TorBlock.ServeHTTP
  simp [hdis]

theorem C6_disabled_forwards_witness :
    clientIsMember (exampleTorBlock false ⟨[CreateIPv4 203 0 113 5]⟩ ⟨[]⟩
        (go "example.onion")) (netIPv4 203 0 113 5) = true ∧
      (exampleTorBlock false ⟨[CreateIPv4 203 0 113 5]⟩ ⟨[]⟩ (go "example.onion")).ServeHTTP
        (parseIPTable [(go "203.0.113.5", netIPv4 203 0 113 5)])
        (exampleRequest (go "203.0.113.5") (go "/foo?x=1")) = .next :=
  ⟨by decide,
   C6_disabled_forwards (parseIPTable [(go "203.0.113.5", netIPv4 203 0 113 5)])
     (exampleTorBlock false ⟨[CreateIPv4 203 0 113 5]⟩ ⟨[]⟩ (go "example.onion"))
     (exampleRequest (go "203.0.113.5") (go "/foo?x=1")) (by decide)⟩

/-- C7: an enabled TorBlock forwards a request whose client address `net.ParseIP`
does not parse (it returns nil) to the next handler: no 403 and no redirect. -/
theorem C7_unparsable_address_forwards (parseIP : GoString → Option NetIP) (a : TorBlock)
    (req : Request) (_hen : a.enabled = true)
    (hparse : parseIP (a.remoteHost req) = none) :
    a.ServeHTTP parseIP req = .next := by
  unfold TorBlock.ServeHTTP
  simp [hparse]

theorem C7_unparsable_address_forwards_witness :
    (exampleTorBlock true ⟨[CreateIPv4 203 0 113 5]⟩ ⟨[]⟩ (go "example.onion")).ServeHTTP
        (parseIPTable [(go "203.0.113.5", netIPv4 203 0 113 5)])
        (exampleRequest (go "192.0.2.1:4711") (go "/")) = .next :=
  C7_unparsable_address_forwards (parseIPTable [(go "203.0.113.5", netIPv4 203 0 113 5)])
    (exampleTorBlock true ⟨[CreateIPv4 203 0 113 5]⟩ ⟨[]⟩ (go "example.onion"))
    (exampleRequest (go "192.0.2.1:4711") (go "/")) (by decide) (by decide)

/-! ## Claims on the refresh cycle -/

/-- C8: a refresh cycle whose fetch fails at transport level, returns a status other
than 200, or fails while reading the body leaves the membership of both live sets as
it was before the cycle. -/
theorem C8_failed_fetch_keeps_live_sets (parseIP : GoString → Option NetIP)
    (findAllString : GoString → List GoString) (fetched : FetchResult) (a : TorBlock)
    (hfail : fetchFailed fetched = true) :
    (∀ ip, (a.UpdateBlockedIPs parseIP findAllString fetched).blockedIPs.ContainsIPv4 ip =
        a.blockedIPs.ContainsIPv4 ip) ∧
      (∀ ip, (a.UpdateBlockedIPs parseIP findAllString fetched).blockedIPv6s.ContainsIPv6 ip =
        a.blockedIPv6s.ContainsIPv6 ip) := by
  rw [TorBlock.UpdateBlockedIPs_of_failed parseIP findAllString fetched a hfail]
  exact ⟨fun _ => rfl, fun _ => rfl⟩

theorem C8_failed_fetch_keeps_live_sets_witness :
    fetchFailed (.ok ⟨503, .ok (go "1.2.3.4")⟩) = true ∧
      ((exampleTorBlock true ⟨[CreateIPv4 203 0 113 5]⟩ ⟨[]⟩ []).UpdateBlockedIPs
        (parseIPTable [(go "1.2.3.4", netIPv4 1 2 3 4)]) splitLines
        (.ok ⟨503, .ok (go "1.2.3.4")⟩)).blockedIPs.ContainsIPv4 (CreateIPv4 1 2 3 4) =
        false ∧
      ((exampleTorBlock true ⟨[CreateIPv4 203 0 113 5]⟩ ⟨[]⟩ []).UpdateBlockedIPs
        (parseIPTable [(go "1.2.3.4", netIPv4 1 2 3 4)]) splitLines
        (.error "timeout")).blockedIPs.ContainsIPv4 (CreateIPv4 203 0 113 5) = true :=
  ⟨by decide,
   ((C8_failed_fetch_keeps_live_sets (parseIPTable [(go "1.2.3.4", netIPv4 1 2 3 4)])
      splitLines (.ok ⟨503, .ok (go "1.2.3.4")⟩)
      (exampleTorBlock true ⟨[CreateIPv4 203 0 113 5]⟩ ⟨[]⟩ []) (by decide)).1
      (CreateIPv4 1 2 3 4)).trans (by decide),
   ((C8_failed_fetch_keeps_live_sets (parseIPTable [(go "1.2.3.4", netIPv4 1 2 3 4)])
      splitLines (.error "timeout")
      (exampleTorBlock true ⟨[CreateIPv4 203 0 113 5]⟩ ⟨[]⟩ []) (by decide)).1
      (CreateIPv4 203 0 113 5)).trans (by decide)⟩

/-- C9: the live blocklist only grows. An address that is a member of the live IPv4
(resp. IPv6) set is still a member after one refresh cycle, whatever was fetched, and
after any finite sequence of refresh cycles. -/
theorem C9_live_sets_only_grow (parseIP : GoString → Option NetIP)
    (findAllString : GoString → List GoString) (fetched : FetchResult)
    (fetches : List FetchResult) (a : TorBlock) (ip : IPv4) (ip6 : IPv6) :
    (a.blockedIPs.ContainsIPv4 ip = true →
        (a.UpdateBlockedIPs parseIP findAllString fetched).blockedIPs.ContainsIPv4 ip = true ∧
        (a.UpdateWorker parseIP findAllString fetches).blockedIPs.ContainsIPv4 ip = true) ∧
      (a.blockedIPv6s.ContainsIPv6 ip6 = true →
        (a.UpdateBlockedIPs parseIP findAllString fetched).blockedIPv6s.ContainsIPv6 ip6 =
          true ∧
        (a.UpdateWorker parseIP findAllString fetches).blockedIPv6s.ContainsIPv6 ip6 =
          true) := by
  simp only [IPv4Set.containsIPv4_iff, IPv6Set.containsIPv6_iff]
  exact ⟨fun h => ⟨TorBlock.mem_blockedIPs_UpdateBlockedIPs parseIP findAllString fetched a ip h,
      TorBlock.mem_blockedIPs_UpdateWorker parseIP findAllString fetches a ip h⟩,
    fun h => ⟨TorBlock.mem_blockedIPv6s_UpdateBlockedIPs parseIP findAllString fetched a ip6 h,
      TorBlock.mem_blockedIPv6s_UpdateWorker parseIP findAllString fetches a ip6 h⟩⟩

theorem C9_live_sets_only_grow_witness :
    ((exampleTorBlock true ⟨[CreateIPv4 203 0 113 5]⟩ ⟨[]⟩ []).UpdateWorker
        (parseIPTable [(go "1.2.3.4", netIPv4 1 2 3 4)]) splitLines
        [.ok ⟨200, .ok (go "1.2.3.4")⟩, .error "timeout", .ok ⟨200, .ok []⟩]).blockedIPs
      = ⟨[CreateIPv4 203 0 113 5, CreateIPv4 1 2 3 4]⟩ ∧
    ((exampleTorBlock true ⟨[CreateIPv4 203 0 113 5]⟩ ⟨[]⟩ []).UpdateWorker
        (parseIPTable [(go "1.2.3.4", netIPv4 1 2 3 4)]) splitLines
        [.ok ⟨200, .ok (go "1.2.3.4")⟩, .error "timeout", .ok ⟨200, .ok []⟩]).blockedIPs.ContainsIPv4
      (CreateIPv4 203 0 113 5) = true :=
  ⟨by decide,
   ((C9_live_sets_only_grow (parseIPTable [(go "1.2.3.4", netIPv4 1 2 3 4)]) splitLines
      (.error "timeout") [.ok ⟨200, .ok (go "1.2.3.4")⟩, .error "timeout", .ok ⟨200, .ok []⟩]
      (exampleTorBlock true ⟨[CreateIPv4 203 0 113 5]⟩ ⟨[]⟩ []) (CreateIPv4 203 0 113 5)
      (CreateIPv6 [])).1 (by decide)).2⟩

/-- C10: the loop over the found strings drops a string that fails to parse and goes
on. The new IPv4 set holds exactly the values `ParseIPv4 t` of the strings `t` that
`net.ParseIP` classifies as IPv4 and `ParseIPv4` accepts, the new IPv6 set exactly the
values `ParseIPv6 t` of the other strings that `ParseIPv6` accepts, wherever the
rejected strings stand; with one well-formed and one malformed string, in either
order, the new IPv4 set holds the well-formed address only. -/
theorem C10_parse_failures_are_skipped (parseIP : GoString → Option NetIP)
    (foundIPStrs : List GoString) (x : IPv4) (y : IPv6) :
    ((UpdateBlockedIPs.parseFound parseIP foundIPStrs).1.ContainsIPv4 x = true ↔
        ∃ t ∈ foundIPStrs, isIPv4Literal parseIP t = true ∧ ParseIPv4 t = .ok x) ∧
      ((UpdateBlockedIPs.parseFound parseIP foundIPStrs).2.ContainsIPv6 y = true ↔
        ∃ t ∈ foundIPStrs, isIPv4Literal parseIP t = false ∧
          ParseIPv6 parseIP t = .ok y) ∧
      UpdateBlockedIPs.parseFound
          (parseIPTable [(go "1.2.3.4", netIPv4 1 2 3 4), (go "::ffff:102:304", netIPv4 1 2 3 4)])
          [go "1.2.3.256", go "1.2.3.4", go "::ffff:102:304"] =
        (⟨[CreateIPv4 1 2 3 4]⟩, ⟨[]⟩) ∧
      UpdateBlockedIPs.parseFound
          (parseIPTable [(go "1.2.3.4", netIPv4 1 2 3 4), (go "::ffff:102:304", netIPv4 1 2 3 4)])
          [go "1.2.3.4", go "1.2.3.256"] =
        (⟨[CreateIPv4 1 2 3 4]⟩, ⟨[]⟩) := by
  refine ⟨?_, ?_, by decide, by decide⟩
  · rw [IPv4Set.containsIPv4_iff]
    have h := (UpdateBlockedIPs.mem_foldl_addFound parseIP foundIPStrs
      (CreateIPv4Set, CreateIPv6Set) x y).1
    simpa [UpdateBlockedIPs.parseFound, CreateIPv4Set] using h
  · rw [IPv6Set.containsIPv6_iff]
    have h := (UpdateBlockedIPs.mem_foldl_addFound parseIP foundIPStrs
      (CreateIPv4Set, CreateIPv6Set) x y).2
    simpa [UpdateBlockedIPs.parseFound, CreateIPv6Set] using h

/-! ## Claims on construction -/

/-- C11: `New` returns an error exactly when `url.ParseRequestURI` rejects
`AddressListURL` or `UpdateIntervalSeconds < 60`, whatever the first fetch returns
(an unreachable URL does not fail construction). With a request-URI check that rejects
`bad`: the URL `bad` fails, the intervals 1 and 59 fail, and the interval 60, the
default configuration and `https://badurl.test123/test` with a failing fetch succeed. -/
theorem C11_New_fails_iff_invalid (validRequestURI : GoString → Bool)
    (parseIP : GoString → Option NetIP) (findAllString : GoString → List GoString)
    (config : Config) (name : GoString) (fetched : FetchResult) :
    ((∃ e, New validRequestURI parseIP findAllString config name fetched = .error e) ↔
        (validRequestURI config.AddressListURL = false ∨
          config.UpdateIntervalSeconds < 60)) ∧
      ((∃ a, New validRequestURI parseIP findAllString config name fetched = .ok a) ↔
        (validRequestURI config.AddressListURL = true ∧
          60 ≤ config.UpdateIntervalSeconds)) ∧
      (∃ e, New (requestURITable [CreateConfig.AddressListURL, go "https://badurl.test123/test"])
        (parseIPTable []) splitLines { CreateConfig with AddressListURL := go "bad" }
        (go "torblock") (.error "no such host") = .error e) ∧
      (∃ e, New (requestURITable [CreateConfig.AddressListURL, go "https://badurl.test123/test"])
        (parseIPTable []) splitLines { CreateConfig with UpdateIntervalSeconds := 1 }
        (go "torblock") (.ok ⟨200, .ok []⟩) = .error e) ∧
      (∃ e, New (requestURITable [CreateConfig.AddressListURL, go "https://badurl.test123/test"])
        (parseIPTable []) splitLines { CreateConfig with UpdateIntervalSeconds := 59 }
        (go "torblock") (.ok ⟨200, .ok []⟩) = .error e) ∧
      (∃ a, New (requestURITable [CreateConfig.AddressListURL, go "https://badurl.test123/test"])
        (parseIPTable []) splitLines { CreateConfig with UpdateIntervalSeconds := 60 }
        (go "torblock") (.ok ⟨200, .ok []⟩) = .ok a) ∧
      (∃ a, New (requestURITable [CreateConfig.AddressListURL, go "https://badurl.test123/test"])
        (parseIPTable []) splitLines CreateConfig (go "torblock") (.ok ⟨200, .ok []⟩) =
          .ok a) ∧
      (∃ a, New (requestURITable [CreateConfig.AddressListURL, go "https://badurl.test123/test"])
        (parseIPTable []) splitLines
        { CreateConfig with AddressListURL := go "https://badurl.test123/test" }
        (go "torblock") (.error "no such host") = .ok a) := by
  have key : ∀ (valid : GoString → Bool) (parse : GoString → Option NetIP)
      (findAll : GoString → List GoString) (cfg : Config) (nm : GoString)
      (ft : FetchResult),
      ((∃ e, New valid parse findAll cfg nm ft = .error e) ↔
        (valid cfg.AddressListURL = false ∨ cfg.UpdateIntervalSeconds < 60)) ∧
      ((∃ a, New valid parse findAll cfg nm ft = .ok a) ↔
        (valid cfg.AddressListURL = true ∧ 60 ≤ cfg.UpdateIntervalSeconds)) := by
    intro valid parse findAll cfg nm ft
    unfold New
    by_cases hu : valid cfg.AddressListURL = true
    · by_cases hi : cfg.UpdateIntervalSeconds < 60
      · simp [hu, hi]
      · simp [hu, hi]
        omega
    · have hu' : valid cfg.AddressListURL = false := by simpa using hu
      simp [hu']
  refine ⟨(key _ _ _ _ _ _).1, (key _ _ _ _ _ _).2, ?_, ?_, ?_, ?_, ?_, ?_⟩
  · exact (key _ _ _ _ _ _).1.2 (Or.inl (by decide))
  · exact (key _ _ _ _ _ _).1.2 (Or.inr (by decide))
  · exact (key _ _ _ _ _ _).1.2 (Or.inr (by decide))
  · exact (key _ _ _ _ _ _).2.2 ⟨by decide, by decide⟩
  · exact (key _ _ _ _ _ _).2.2 ⟨by decide, by decide⟩
  · exact (key _ _ _ _ _ _).2.2 ⟨by decide, by decide⟩

/-! ## Claims on the address sets -/

/-- C12: merging is idempotent. After `s.AddIPv4Set(o)`, a second `s.AddIPv4Set(o)`
leaves `s` as it is, so membership in `s` is the same after two calls as after one;
the call only reads `o`, and when `o` is `s` itself the set is left as it is. The same
holds for `AddIPv6Set`. -/
theorem C12_merge_is_idempotent (s o : IPv4Set) (s6 o6 : IPv6Set) (x : IPv4) (y : IPv6) :
    (s.AddIPv4Set o).AddIPv4Set o = s.AddIPv4Set o ∧
      ((s.AddIPv4Set o).AddIPv4Set o).ContainsIPv4 x = (s.AddIPv4Set o).ContainsIPv4 x ∧
      s.AddIPv4Set s = s ∧
      (s6.AddIPv6Set o6).AddIPv6Set o6 = s6.AddIPv6Set o6 ∧
      ((s6.AddIPv6Set o6).AddIPv6Set o6).ContainsIPv6 y = (s6.AddIPv6Set o6).ContainsIPv6 y ∧
      s6.AddIPv6Set s6 = s6 := by
  have h4 : (s.AddIPv4Set o).AddIPv4Set o = s.AddIPv4Set o :=
    IPv4Set.foldl_AddIPv4_of_mem o.set (s.AddIPv4Set o)
      (fun z hz => (IPv4Set.mem_AddIPv4Set s o z).2 (Or.inr hz))
  have h6 : (s6.AddIPv6Set o6).AddIPv6Set o6 = s6.AddIPv6Set o6 :=
    IPv6Set.foldl_AddIPv6_of_mem o6.set (s6.AddIPv6Set o6)
      (fun z hz => (IPv6Set.mem_AddIPv6Set s6 o6 z).2 (Or.inr hz))
  refine ⟨h4, by rw [h4], ?_, h6, by rw [h6], ?_⟩
  · exact IPv4Set.foldl_AddIPv4_of_mem s.set s (fun _ hz => hz)
  · exact IPv6Set.foldl_AddIPv6_of_mem s6.set s6 (fun _ hz => hz)

/-- C13: merging is set union. After `s.AddIPv4Set(o)`, `s.ContainsIPv4(x)` is true
exactly when `x` was in `s` before the call or `x` is in `o`; the same holds for
`AddIPv6Set` and `ContainsIPv6`. -/
theorem C13_merge_is_union (s o : IPv4Set) (s6 o6 : IPv6Set) (x : IPv4) (y : IPv6) :
    ((s.AddIPv4Set o).ContainsIPv4 x = true ↔
        s.ContainsIPv4 x = true ∨ o.ContainsIPv4 x = true) ∧
      ((s6.AddIPv6Set o6).ContainsIPv6 y = true ↔
        s6.ContainsIPv6 y = true ∨ o6.ContainsIPv6 y = true) := by
  simp only [IPv4Set.containsIPv4_iff, IPv6Set.containsIPv6_iff]
  exact ⟨IPv4Set.mem_AddIPv4Set s o x, IPv6Set.mem_AddIPv6Set s6 o6 y⟩

/-! ## Claims on the client address and the lookup key -/

/-- C14: the client address `ServeHTTP` classifies is the value of the configured
header when that value is not empty, and `req.RemoteAddr` when it is empty (an absent
header reads as empty); `ServeHTTP` asks `net.ParseIP` about that string only. -/
theorem C14_client_address_resolution (parseIP : GoString → Option NetIP) (a : TorBlock)
    (req : Request) :
    (req.Header a.ForwardedHeadersCustomName ≠ [] →
        a.remoteHost req = req.Header a.ForwardedHeadersCustomName) ∧
      (req.Header a.ForwardedHeadersCustomName = [] → a.remoteHost req = req.RemoteAddr) ∧
      a.ServeHTTP parseIP req =
        a.ServeHTTP
          (fun _ => parseIP
            (if req.Header a.ForwardedHeadersCustomName = [] then req.RemoteAddr
             else req.Header a.ForwardedHeadersCustomName)) req := by
  refine ⟨?_, ?_, ?_⟩
  · intro h
    simp [TorBlock.remoteHost, h]
  · intro h
    simp [TorBlock.remoteHost, h]
  · simp only [TorBlock.ServeHTTP, TorBlock.remoteHost]

theorem C14_client_address_resolution_witness :
    (exampleTorBlock true ⟨[]⟩ ⟨[]⟩ []).remoteHost
        { Header := fun n => if n = go "X-Forwarded-For" then go "203.0.113.5" else []
          RemoteAddr := go "127.0.0.1"
          RequestURI := go "/" } = go "203.0.113.5" ∧
      (exampleTorBlock true ⟨[]⟩ ⟨[]⟩ []).remoteHost
        (exampleRequest (go "127.0.0.1") (go "/")) = go "127.0.0.1" :=
  ⟨(C14_client_address_resolution (parseIPTable []) (exampleTorBlock true ⟨[]⟩ ⟨[]⟩ [])
      { Header := fun n => if n = go "X-Forwarded-For" then go "203.0.113.5" else []
        RemoteAddr := go "127.0.0.1"
        RequestURI := go "/" }).1 (by decide),
   (C14_client_address_resolution (parseIPTable []) (exampleTorBlock true ⟨[]⟩ ⟨[]⟩ [])
      (exampleRequest (go "127.0.0.1") (go "/"))).2.1 (by decide)⟩

/-- C16: on bytes, `CreateIPv4 a b c d` holds `a*2^24 + b*2^16 + c*2^8 + d`, the first
octet in the most significant byte, and two results are equal exactly when the four
octets are equal. -/
theorem C16_CreateIPv4_is_injective (a b c d a' b' c' d' : Nat) (ha : a ≤ 255)
    (hb : b ≤ 255) (hc : c ≤ 255) (hd : d ≤ 255) (ha' : a' ≤ 255) (hb' : b' ≤ 255)
    (hc' : c' ≤ 255) (hd' : d' ≤ 255) :
    (CreateIPv4 a b c d).addr = a * 2 ^ 24 + b * 2 ^ 16 + c * 2 ^ 8 + d ∧
      (CreateIPv4 a b c d).addr < 2 ^ 32 ∧
      (CreateIPv4 a b c d = CreateIPv4 a' b' c' d' ↔ a = a' ∧ b = b' ∧ c = c' ∧ d = d') := by
  have h := CreateIPv4_addr a b c d ha hb hc hd
  have h' := CreateIPv4_addr a' b' c' d' ha' hb' hc' hd'
  refine ⟨h, by omega, ?_, ?_⟩
  · intro heq
    have e : (CreateIPv4 a b c d).addr = (CreateIPv4 a' b' c' d').addr := by rw [heq]
    rw [h, h'] at e
    omega
  · rintro ⟨rfl, rfl, rfl, rfl⟩
    rfl

theorem C16_CreateIPv4_is_injective_witness :
    (CreateIPv4 203 0 113 5).addr = 203 * 2 ^ 24 + 0 * 2 ^ 16 + 113 * 2 ^ 8 + 5 ∧
      (CreateIPv4 203 0 113 5).addr < 2 ^ 32 ∧
      (CreateIPv4 203 0 113 5 = CreateIPv4 203 0 5 113 ↔
        203 = 203 ∧ 0 = 0 ∧ 113 = 5 ∧ 5 = 113) :=
  C16_CreateIPv4_is_injective 203 0 113 5 203 0 5 113 (by decide) (by decide) (by decide)
    (by decide) (by decide) (by decide) (by decide) (by decide)

/-- C17, evaluated on the code: `net.ParseIP` returns an IPv4 literal `a.b.c.d` as 16
bytes, whose first four are zero, so the key `ServeHTTP` looks up is
`CreateIPv4 0 0 0 0` for every IPv4 client. For client 203.0.113.5 and a live set
holding the value `ParseIPv4` gives for `203.0.113.5`, the key differs from that value
and the membership test answers false. -/
theorem C17_lookup_key_is_zero (a b c d : Nat) :
    ServeHTTP.ipv4 (netIPv4 a b c d) = CreateIPv4 0 0 0 0 ∧
      To4 (netIPv4 a b c d) = some [a, b, c, d] ∧
      ParseIPv4 (go "203.0.113.5") = .ok (CreateIPv4 203 0 113 5) ∧
      ServeHTTP.ipv4 (netIPv4 203 0 113 5) ≠ CreateIPv4 203 0 113 5 ∧
      (CreateIPv4Set.AddIPv4 (CreateIPv4 203 0 113 5)).ContainsIPv4
        (ServeHTTP.ipv4 (netIPv4 203 0 113 5)) = false ∧
      clientIsMember
        (exampleTorBlock true (CreateIPv4Set.AddIPv4 (CreateIPv4 203 0 113 5)) ⟨[]⟩ [])
        (netIPv4 203 0 113 5) = true := by
  refine ⟨rfl, ?_, by decide, by decide, by decide, by decide⟩
  simp [To4, netIPv4]

/-! ## Claims on the safety of `ParseIPv4` -/

/-- C18: in every state `st` the loop of `ParseIPv4` reaches at an index `i ≤ len(s)`,
on every string, `val ≤ 255`, `pos ≤ 3` and `fields` has its three cells. So at
`i < len(s)` the value assigned to `val` in the digit branch is at most 2559, and when
the dot branch writes `fields[pos] = uint8(val)` (the iteration goes on from a dot)
`pos` is at most 2 and `val` at most 255; at the end `uint8(val)` converts a value of
at most 255. -/
theorem C18_ParseIPv4_is_safe (s : GoString) (i : Nat) (st : ParseState)
    (_hi : i ≤ s.length) (hreach : ParseIPv4.loop s i 0 ParseState.init = .ok st) :
    st.val ≤ 255 ∧ st.pos ≤ 3 ∧ st.fields.length = 3 ∧
      (48 ≤ s.getD i 0 ∧ s.getD i 0 ≤ 57 → st.val * 10 + s.getD i 0 - 48 ≤ 2559) ∧
      (∀ st', s.getD i 0 = 46 → ParseIPv4.step s i st = .ok st' →
        st.pos < 3 ∧ st.val ≤ 255 ∧ st.val % 256 = st.val ∧
          st'.fields = st.fields.set st.pos st.val) := by
  obtain ⟨hv, hp, hf⟩ := ParseIPv4.reached_bounds s i st hreach
  refine ⟨hv, hp, hf, ?_, ?_⟩
  · intro hc
    omega
  · intro st' hdot hstep
    have hmod : st.val % 256 = st.val := Nat.mod_eq_of_lt (by omega)
    unfold ParseIPv4.step at hstep
    simp only [hdot] at hstep
    have hnd : ¬ (48 ≤ 46 ∧ 46 ≤ 57) := by omega
    rw [if_neg hnd, if_pos trivial] at hstep
    split at hstep
    · cases hstep
    · split at hstep
      · cases hstep
      · rename_i hne
        cases hstep
        exact ⟨by omega, hv, hmod, by rw [hmod]⟩

theorem C18_ParseIPv4_is_safe_witness :
    (255 : Nat) ≤ 255 ∧ (2 : Nat) ≤ 3 ∧ [10, 20, 0].length = 3 ∧
      (48 ≤ (go "10.20.255.4").getD 9 0 ∧ (go "10.20.255.4").getD 9 0 ≤ 57 →
        255 * 10 + (go "10.20.255.4").getD 9 0 - 48 ≤ 2559) ∧
      (∀ st', (go "10.20.255.4").getD 9 0 = 46 →
        ParseIPv4.step (go "10.20.255.4") 9 ⟨[10, 20, 0], 255, 2⟩ = .ok st' →
        2 < 3 ∧ 255 ≤ 255 ∧ 255 % 256 = 255 ∧ st'.fields = [10, 20, 0].set 2 255) :=
  C18_ParseIPv4_is_safe (go "10.20.255.4") 9 ⟨[10, 20, 0], 255, 2⟩ (by decide) (by decide)

/-! ## Claims on the origin of the blocklist -/

/-- C19: no address is blocked without having appeared in a feed. For a TorBlock that
`New` returned (empty sets, then the first refresh cycle) and any finite sequence of
further refresh cycles, every member of the live IPv4 set is `ParseIPv4 t` for a
string `t` extracted from the body of a cycle that fetched successfully (status 200),
every member of the live IPv6 set is `ParseIPv6 t` for such a string, and both sets
are empty if every fetch failed. -/
theorem C19_members_come_from_feeds (validRequestURI : GoString → Bool)
    (parseIP : GoString → Option NetIP) (findAllString : GoString → List GoString)
    (config : Config) (name : GoString) (fetched : FetchResult)
    (fetches : List FetchResult) (a : TorBlock) (x : IPv4) (y : IPv6)
    (hnew : New validRequestURI parseIP findAllString config name fetched = .ok a) :
    ((a.UpdateWorker parseIP findAllString fetches).blockedIPs.ContainsIPv4 x = true →
        ∃ t, extractedFrom findAllString (fetched :: fetches) t ∧ ParseIPv4 t = .ok x) ∧
      ((a.UpdateWorker parseIP findAllString fetches).blockedIPv6s.ContainsIPv6 y = true →
        ∃ t, extractedFrom findAllString (fetched :: fetches) t ∧
          ParseIPv6 parseIP t = .ok y) ∧
      ((∀ f ∈ fetched :: fetches, fetchFailed f = true) →
        (a.UpdateWorker parseIP findAllString fetches).blockedIPs = CreateIPv4Set ∧
          (a.UpdateWorker parseIP findAllString fetches).blockedIPv6s = CreateIPv6Set) := by
  have ha := New_eq_ok validRequestURI parseIP findAllString config name fetched a hnew
  have hall : a.UpdateWorker parseIP findAllString fetches =
      (New.initial config name).UpdateWorker parseIP findAllString (fetched :: fetches) := by
    rw [ha]
    rfl
  rw [hall]
  have horigin := TorBlock.mem_UpdateWorker_origin parseIP findAllString (fetched :: fetches)
    (New.initial config name) x y
  refine ⟨?_, ?_, ?_⟩
  · intro hx
    rcases horigin.1 ((IPv4Set.containsIPv4_iff _ x).1 hx) with h | h
    · simp [New.initial, CreateIPv4Set] at h
    · exact h
  · intro hy
    rcases horigin.2 ((IPv6Set.containsIPv6_iff _ y).1 hy) with h | h
    · simp [New.initial, CreateIPv6Set] at h
    · exact h
  · intro hfail
    rw [TorBlock.UpdateWorker_of_failed parseIP findAllString (fetched :: fetches)
      (New.initial config name) hfail]
    exact ⟨rfl, rfl⟩

theorem C19_members_come_from_feeds_witness :
    ∃ t, extractedFrom splitLines
        [.error "no such host", .ok ⟨503, .ok (go "9.9.9.9")⟩,
          .ok ⟨200, .ok (go "1.2.3.4\nExitNode 1.2.3.256")⟩] t ∧
      ParseIPv4 t = .ok (CreateIPv4 1 2 3 4) :=
  (C19_members_come_from_feeds (requestURITable [CreateConfig.AddressListURL])
    (parseIPTable [(go "1.2.3.4", netIPv4 1 2 3 4), (go "9.9.9.9", netIPv4 9 9 9 9)])
    splitLines CreateConfig (go "torblock") (.error "no such host")
    [.ok ⟨503, .ok (go "9.9.9.9")⟩, .ok ⟨200, .ok (go "1.2.3.4\nExitNode 1.2.3.256")⟩]
    (New.initial CreateConfig (go "torblock")) (CreateIPv4 1 2 3 4) (CreateIPv6 [])
    (by rfl)).1 (by decide)

end TorBlockRedirect
